import Mathlib

/-!
Verification development for the tmt ReportPortal report plugin
(`tmt/steps/report/reportportal.py`).

A Python `str` is modelled as a `List Nat` of Unicode code points: Python
strings can hold lone surrogate code points, which Lean's `Char` cannot
represent, and the invalid-character filter is precisely about those code
points.  Where string *content* only flows through opaquely (names, uuids,
timestamps), plain `String` is used.

Truthiness of Python `Optional[str]` values (`None` and `""` are falsy) is
modelled by `pyTruthyO`; `x or y` on such values by `pyOrStr`.
-/

set_option autoImplicit false
set_option maxHeartbeats 1000000
set_option maxRecDepth 4000

/-- Code points of a Lean string literal (used to embed Python string
constants such as the truncation banner into the code-point model). -/
def strCodes (s : String) : List Nat := s.data.map Char.toNat

/-- Embeds `LogFilterSettings` (`size` is the limit's magnitude in bytes, as
produced by `settings.size.to('bytes').magnitude`). -/
structure LogFilterSettings where
  size : Nat
  is_traceback : Bool

/-- The code points kept by `_filter_invalid_chars`: the regular expression
character class `[ -퟿\u0009\u000A\u000D-�\U00010000-\U0010FFFF]`. -/
def validXmlCodepoint (c : Nat) : Bool :=
  (0x20 ≤ c && c ≤ 0xD7FF) || c == 0x9 || c == 0xA || c == 0xD ||
    (0xE000 ≤ c && c ≤ 0xFFFD) || (0x10000 ≤ c && c ≤ 0x10FFFF)

/-- Embeds `_filter_invalid_chars`: `re.sub` with the negated class deletes
every code point outside `validXmlCodepoint`.  The `settings` argument is
taken and ignored, as in the source. -/
def filter_invalid_chars (data : List Nat) (_st : LogFilterSettings) : List Nat :=
  data.filter validXmlCodepoint

/-- The warning banner (`header`) built by `_filter_log_per_size` when it
truncates.  The two interpolated pint quantities are rendered as
`<n> byte`; the option and environment-variable names are the source's
literals. -/
def sizeBannerCodes (dataLen limit : Nat) (tb : Bool) : List Nat :=
  let v := if tb then "TMT_PLUGIN_REPORT_REPORTPORTAL_TRACEBACK_SIZE_LIMIT"
    else "TMT_PLUGIN_REPORT_REPORTPORTAL_LOG_SIZE_LIMIT"
  let opt := if tb then "--traceback-size-limit" else "--log-size-limit"
  strCodes ("WARNING: Uploaded log has been truncated because its size " ++
    toString dataLen ++
    " byte exceeds tmt reportportal plugin limit of " ++ toString limit ++
    " byte. The limit is controlled with " ++ opt ++ " plugin option or " ++ v ++
    " environment variable.\n\n")

/-- Embeds `_filter_log_per_size`.  The source computes
`size = tmt.hardware.UNITS(f'<len(data)> bytes')`, i.e. it measures
`len(data)` — the number of code points of the Python `str` — and compares
that quantity against the limit; the truncation slice `data[:limit]` is
likewise a slice of code points. -/
def filter_log_per_size (data : List Nat) (st : LogFilterSettings) : List Nat :=
  if st.size < data.length then
    sizeBannerCodes data.length st.size st.is_traceback ++ data.take st.size
  else data

/-- Embeds `_LOG_FILTERS`: the ordered filter pipeline. -/
def LOG_FILTERS : List (List Nat → LogFilterSettings → List Nat) :=
  [filter_log_per_size, filter_invalid_chars]

/-- Embeds `_filter_log`: folds the log through `_LOG_FILTERS` in order. -/
def filter_log (log : List Nat) (st : LogFilterSettings) : List Nat :=
  LOG_FILTERS.foldl (fun acc f => f acc st) log

/-- UTF-8 encoded length of one Unicode scalar value. -/
def utf8Len (c : Nat) : Nat :=
  if c < 0x80 then 1 else if c < 0x800 then 2 else if c < 0x10000 then 3 else 4

/-- Byte length of a text under UTF-8, the "byte-length" the specification
speaks about. -/
def utf8ByteLength (data : List Nat) : Nat := (data.map utf8Len).sum

/-- Python `Optional[str]` truthiness: `None` and `""` are falsy. -/
def pyTruthyO : Option String → Bool
  | none => false
  | some s => !s.isEmpty

/-- Python `x or d` for `x : Optional[str]`. -/
def pyOrStr (x : Option String) (d : String) : String :=
  match x with
  | some s => if s.isEmpty then d else s
  | none => d

/-- Python `str(x)` for `x : Optional[str]` (`str(None)` is `"None"`). -/
def pyStrOpt : Option String → String
  | none => "None"
  | some s => s

/-- First-match lookup in an association list with string keys (Python dict
access on the dicts built in this module, whose keys are unique). -/
def lookupStr (k : String) : List (String × String) → Option String
  | [] => none
  | kv :: rest => if kv.1 == k then some kv.2 else lookupStr k rest

/-- One step of the reduction in `construct_launch_attributes`: from
`result_dict` and the next plan's map, keep the entries of the next plan
whose key is in `result_dict` with the same value (the `tmp_dict` loop). -/
def intersect_step (result_dict current_plan : List (String × String)) :
    List (String × String) :=
  current_plan.filter (fun kv => lookupStr kv.1 result_dict == some kv.2)

/-- Embeds `construct_launch_attributes`.  `merged_plans` is the list of
per-plan "first context value of each key" maps (`plan._fmf_context` keeps
a list of values per key; only `value[0]` is ever read by this module, so a
context is modelled as its first-value map).  The `[]` case of a run with
no plans cannot arise (the current plan belongs to the run). -/
def construct_launch_attributes (suite_per_plan : Bool) (has_run : Bool)
    (merged_plans : List (List (String × String)))
    (attributes : List (String × String)) : List (String × String) :=
  if !suite_per_plan || !has_run then attributes
  else
    match merged_plans with
    | [] => []
    | first :: rest => rest.foldl intersect_step first

/-- A plan context map has no duplicate keys (Python dicts). -/
def nodupKeys (l : List (String × String)) : Prop := (l.map Prod.fst).Nodup

instance (l : List (String × String)) : Decidable (nodupKeys l) := by
  unfold nodupKeys; infer_instance

/-- Embeds `check_options`: when both topology flags are set,
`suite_per_plan` is reset to `False` (with a warning).  Returns the pair
`(launch_per_plan, suite_per_plan)` after the check. -/
def check_options (launch_per_plan suite_per_plan : Bool) : Bool × Bool :=
  if launch_per_plan && suite_per_plan then (launch_per_plan, false)
  else (launch_per_plan, suite_per_plan)

/-- Embeds the topology defaulting at the top of `execute_rp_import`:
`if not launch_per_plan and not suite_per_plan: launch_per_plan = True`. -/
def effective_topology (launch_per_plan suite_per_plan : Bool) : Bool × Bool :=
  if !launch_per_plan && !suite_per_plan then (true, suite_per_plan)
  else (launch_per_plan, suite_per_plan)

/-- JSON-ish values for request payloads.  `codes` holds the code points of
a message string (log messages may contain arbitrary code points). -/
inductive JVal where
  | s (v : String)
  | n (v : Nat)
  | b (v : Bool)
  | null
  | codes (v : List Nat)
  | arr (v : List JVal)
  | obj (v : List (String × JVal))

/-- The REST calls issued by the plugin, one constructor per call site of
`rp_api_get` / `rp_api_post` / `rp_api_put` in the source. -/
inductive ApiCall where
  | postLaunch (payload : List (String × JVal))
  | getItem (id : String)
  | getLaunch (id : String)
  | getLaunchByUuid (uuid : String)
  | postSuite (payload : List (String × JVal))
  | postTestItem (path : String) (payload : List (String × JVal))
  | postLogEntry (payload : List (String × JVal))
  | getSettings
  | putItemFinish (uuid : String) (payload : List (String × JVal))
  | putSuiteFinish (path : String) (payload : List (String × JVal))
  | putLaunchFinish (uuid : String) (payload : List (String × JVal))

/-- The project defect sub-types returned by `GET settings`, grouped by the
five fixed groups this module searches; each sub-type is a pair
`(longName, locator)`.  A response whose `subTypes` entry is missing or
falsy is modelled as `none`. -/
structure DefectTypes where
  to_investigate : List (String × String)
  no_defect : List (String × String)
  system_issue : List (String × String)
  automation_bug : List (String × String)
  product_bug : List (String × String)

/-- The `groups_to_search` order: TO_INVESTIGATE, NO_DEFECT, SYSTEM_ISSUE,
AUTOMATION_BUG, PRODUCT_BUG. -/
def defect_groups (d : DefectTypes) : List (List (String × String)) :=
  [d.to_investigate, d.no_defect, d.system_issue, d.automation_bug, d.product_bug]

/-- Python `str.lower()` on the names compared here, modelled on the code
points (ASCII letters are lowered; the defect-type long names are ASCII). -/
def pyLowerCodes (s : String) : List Nat :=
  s.data.map (fun c => if 65 ≤ c.toNat && c.toNat ≤ 90 then c.toNat + 32 else c.toNat)

/-- One group iteration: `dt_tmp = [dt['locator'] for dt in group if
dt['longName'].lower() == defect_type.lower()]; dt_locator = dt_tmp[0] if
dt_tmp else None`. -/
def group_locator (defect_type : String) (group : List (String × String)) :
    Option String :=
  ((group.filter (fun dt => pyLowerCodes dt.1 == pyLowerCodes defect_type)).map Prod.snd).head?

/-- The `for group_name in groups_to_search` loop with its truthiness-based
`break`; when no group breaks, `dt_locator` holds the last group's value. -/
def search_defect_groups (defect_type : String) :
    List (List (String × String)) → Option String
  | [] => none
  | g :: rest =>
    let dt_locator := group_locator defect_type g
    if pyTruthyO dt_locator then dt_locator
    else
      match rest with
      | [] => dt_locator
      | _ :: _ => search_defect_groups defect_type rest

/-- Embeds `get_defect_type_locator`.  Returns the list of REST calls it
issues together with either the locator or the `ReportError`
(ConfigurationError) it raises.  `settings` is the parsed `subTypes` of the
`GET settings` response the call would observe. -/
def get_defect_type_locator (settings : Option DefectTypes)
    (defect_type : Option String) : List ApiCall × Except String String :=
  if !pyTruthyO defect_type then ([], Except.ok "ti001")
  else
    let calls := [ApiCall.getSettings]
    match settings with
    | none => (calls, Except.ok "ti001")
    | some d =>
      let loc := search_defect_groups (defect_type.getD "") (defect_groups d)
      if pyTruthyO loc then (calls, Except.ok (loc.getD ""))
      else (calls, Except.error "ConfigurationError: defect type is not defined in the project")

/-- Embeds `ResultOutcome` (the six outcomes mapped by this plugin). -/
inductive ResultOutcome where
  | pass
  | fail
  | info
  | warn
  | error
  | skip
deriving DecidableEq

/-- Embeds `TMT_TO_RP_RESULT_STATUS`. -/
def tmt_to_rp_result_status : ResultOutcome → String
  | ResultOutcome.pass => "PASSED"
  | ResultOutcome.fail => "FAILED"
  | ResultOutcome.info => "SKIPPED"
  | ResultOutcome.warn => "FAILED"
  | ResultOutcome.error => "FAILED"
  | ResultOutcome.skip => "SKIPPED"

/-- The guest descriptor of a `Result`. -/
structure Guest where
  primary_address : Option String
  name : String
  role : Option String

/-- Embeds a tmt `Result` as consumed by this module.  `log` is the ordered
list of log path identifiers; `failures` embeds `result.failures(log)`,
extracting the failure text from a given log content. -/
structure TestResult where
  name : String
  serial_number : Nat
  start_time : Option String
  end_time : Option String
  log : List String
  guest : Guest
  result : ResultOutcome
  failures : List Nat → List Nat

/-- Embeds a tmt `Test` as consumed by this module (`web_link()` and `id`
are modelled as fields holding the value the methods would return). -/
structure TestCase where
  serial_number : Nat
  name : String
  contact : List String
  summary : Option String
  web_link : Option String
  id : Option String
  environment : List (String × String)

/-- The slice of a tmt `Plan` this module reads: name, summary, and the
first-value-per-key projection of `_fmf_context` (only `value[0]` of each
context key is ever read here). -/
structure PlanInfo where
  name : String
  summary : Option String
  fmf_context : List (String × String)

/-- Embeds the `ReportReportPortalData` fields `execute_rp_import` reads and
writes (options plus the persisted state `launch_url` / `launch_uuid` /
`suite_uuid` / `test_uuids`). -/
structure Options where
  url : String
  project : String
  launch : Option String
  launch_description : Option String
  launch_per_plan : Bool
  suite_per_plan : Bool
  upload_to_launch : Option String
  upload_to_suite : Option String
  launch_rerun : Bool
  defect_type : Option String
  log_size_limit : Nat
  traceback_size_limit : Nat
  exclude_variables : String
  artifacts_url : Option String
  launch_url : Option String
  launch_uuid : Option String
  suite_uuid : Option String
  test_uuids : List (Nat × String)

/-- The run-side inputs of `execute_rp_import`: the current plan, the run's
plans, the left join `results_for_tests(discover.tests())` as a list of
`(Optional Result, Optional Test)` pairs, the readable log contents
(`none` models a `FileError` on `execute.read`), the compiled
`re.search(envar_pattern, key)` oracle, `execute.results()`, and the
current timestamp `self.datetime`.  `rpPhaseLaunchUuid` is
`plans[0].report.phases(...)[0].data.launch_uuid` (outer `none` when the
first plan has no such phase). -/
structure Env where
  plan : PlanInfo
  runPlans : List PlanInfo
  isFirstPlan : Bool
  isLastPlan : Bool
  rpPhaseLaunchUuid : Option (Option String)
  pairs : List (Option TestResult × Option TestCase)
  executedResults : List TestResult
  readLog : String → Option (List Nat)
  excludeVar : String → String → Bool
  now : String

/-- The remote side's responses, one field per parsed response value.  The
creation ids (`launchCreateId`, `suiteCreateId`, `itemCreateId`) model a
well-formed server whose creation responses carry an id (the source
`assert`s exactly that right after parsing); `itemCreateId` is indexed by
the number of test items created so far in this plan.  The `GET`-parsed
fields stay `Option` because their absence steers control flow. -/
structure Oracle where
  launchCreateId : String
  itemGetUuid : String → Option String
  itemGetName : String → Option String
  itemGetLaunchId : String → Option String
  launchGetUuid : String → Option String
  launchGetName : String → Option String
  launchUuidGetId : String → Option String
  launchUuidGetName : String → Option String
  suiteCreateId : String
  itemCreateId : Nat → String
  settingsSubTypes : Option DefectTypes
  finishLink : Option String

/-- Embeds `append_description`: extend `curr_description` with the launch
description when one is set. -/
def append_description (launch_description : Option String)
    (curr_description : String) : String :=
  if pyTruthyO launch_description then
    if !curr_description.isEmpty then
      curr_description ++ "<br>" ++ launch_description.getD ""
    else launch_description.getD ""
  else curr_description

/-- The guest attribute appending of the result stage of the test loop. -/
def guest_attributes (item_attributes : List (String × String)) (g : Guest) :
    List (String × String) :=
  let a1 := if pyTruthyO g.primary_address then
      item_attributes ++ [("guest_primary_address", g.primary_address.getD "")]
    else item_attributes
  let a2 := if g.name ≠ "default-0" then a1 ++ [("guest_name", g.name)] else a1
  if pyTruthyO g.role then a2 ++ [("guest_role", g.role.getD "")] else a2

/-- A list of `{'key': k, 'value': v}` objects. -/
def attrsJ (l : List (String × String)) : JVal :=
  JVal.arr (l.map (fun kv => JVal.obj [("key", JVal.s kv.1), ("value", JVal.s kv.2)]))

/-- `None` or a string, as a JSON value. -/
def optSJ : Option String → JVal
  | none => JVal.null
  | some s => JVal.s s

/-- `None` or a parameter list, as a JSON value. -/
def paramsJ : Option (List (String × String)) → JVal
  | none => JVal.null
  | some l => attrsJ l

/-- Subset of `execute_rp_import`'s local state the per-test loop body
reads (configuration, resolved uuids, and the collaborator oracles). -/
structure PairCtx where
  attributes : List (String × String)
  envar_pattern : String
  defect_type : String
  launch_per_plan : Bool
  upload_to_launch : Option String
  upload_to_suite : Option String
  launch_description : Option String
  suite_uuid : Option String
  launch_uuid : String
  log_size_limit : Nat
  traceback_size_limit : Nat
  readLog : String → Option (List Nat)
  excludeVar : String → String → Bool
  settings : Option DefectTypes
  itemCreateId : Nat → String

/-- The body of the `POST item` request creating one test item. -/
def item_payload (c : PairCtx) (test_name : Option String)
    (test_description : String) (item_attributes : List (String × String))
    (env_vars : Option (List (String × String)))
    (test_link test_id : Option String) (test_time : String) :
    List (String × JVal) :=
  [("name", optSJ test_name), ("description", JVal.s test_description),
   ("attributes", attrsJ item_attributes), ("parameters", paramsJ env_vars),
   ("codeRef", optSJ test_link), ("launchUuid", JVal.s c.launch_uuid),
   ("type", JVal.s "step"), ("testCaseId", optSJ test_id),
   ("startTime", JVal.s test_time)]

/-- The `for index, log_path in enumerate(result.log)` loop.  `head_path`
is `result.log[0]`, `outcome` the result's outcome, `ff` its failure
extractor, `status` the loop-carried `status` variable.  Unreadable logs
(`readLog` returning `none`, a `FileError`) are skipped.  Returns the
final `status` and the `POST log/entry` calls in order. -/
def upload_logs_go (c : PairCtx) (item_uuid test_time head_path : String)
    (outcome : ResultOutcome) (ff : List Nat → List Nat) (status : String) :
    List (Nat × String) → String × List ApiCall
  | [] => (status, [])
  | ip :: rest =>
    match c.readLog ip.2 with
    | none => upload_logs_go c item_uuid test_time head_path outcome ff status rest
    | some lg =>
      let level := if ip.2 == head_path then "INFO" else "TRACE"
      let status' := tmt_to_rp_result_status outcome
      let entry1 := ApiCall.postLogEntry
        [("message", JVal.codes (filter_log lg ⟨c.log_size_limit, false⟩)),
         ("itemUuid", JVal.s item_uuid), ("launchUuid", JVal.s c.launch_uuid),
         ("level", JVal.s level), ("time", JVal.s test_time)]
      let extra := if ip.1 == 0 && status' == "FAILED" then
          [ApiCall.postLogEntry
            [("message", JVal.codes (filter_log (ff lg) ⟨c.traceback_size_limit, true⟩)),
             ("itemUuid", JVal.s item_uuid), ("launchUuid", JVal.s c.launch_uuid),
             ("level", JVal.s "ERROR"), ("time", JVal.s test_time)]]
        else []
      let restOut := upload_logs_go c item_uuid test_time head_path outcome ff status' rest
      (restOut.1, entry1 :: (extra ++ restOut.2))

/-- The value of one iteration of the test loop: emitted calls, the loop's
`test_time` variable, the `test_uuids` map, the count of item-creation
calls so far, and the exception aborting the plan, if any. -/
structure PairOut where
  calls : List ApiCall
  test_time : String
  uuids : List (Nat × String)
  cnt : Nat
  err : Option String

/-- Python dict assignment `m[k] = v` on the insertion-ordered
`test_uuids` map. -/
def dict_set (m : List (Nat × String)) (k : Nat) (v : String) :
    List (Nat × String) :=
  if (m.map Prod.fst).contains k then
    m.map (fun kv => if kv.1 == k then (k, v) else kv)
  else m ++ [(k, v)]

/-- Lookup in the `test_uuids` map (`none` models the `KeyError` of
`self.data.test_uuids[serial_number]`). -/
def lookupNat (k : Nat) : List (Nat × String) → Option String
  | [] => none
  | kv :: rest => if kv.1 == k then some kv.2 else lookupNat k rest

/-- The tail of the test-loop body once the per-source fields are
resolved: create or reuse the item, upload the logs, finish the item with
the mapped status and the resolved defect-type locator.  `tt1` is the
loop's `test_time` after the `result.start_time or test_time` update. -/
def process_pair_core (create_test : Bool) (c : PairCtx) (tt1 : String)
    (uuids : List (Nat × String)) (cnt : Nat) (serial : Nat)
    (test_name : Option String) (test_description : String)
    (test_link test_id : Option String)
    (env_vars : Option (List (String × String)))
    (item_attributes : List (String × String)) (r : Option TestResult) :
    PairOut :=
  let createRes : Except String (List ApiCall × String × List (Nat × String) × Nat) :=
    if create_test then
      let td2 := if (pyTruthyO c.upload_to_launch && c.launch_per_plan) ||
          pyTruthyO c.upload_to_suite then
          append_description c.launch_description test_description
        else test_description
      let path := "item" ++
        (if pyTruthyO c.suite_uuid then "/" ++ c.suite_uuid.getD "" else "")
      let iu := c.itemCreateId cnt
      Except.ok ([ApiCall.postTestItem path
          (item_payload c test_name td2 item_attributes env_vars test_link test_id tt1)],
        iu, dict_set uuids serial iu, cnt + 1)
    else
      match lookupNat serial uuids with
      | none => Except.error "KeyError: serial_number"
      | some u => Except.ok ([], u, uuids, cnt)
  match createRes with
  | Except.error e => ⟨[], tt1, uuids, cnt, some e⟩
  | Except.ok (calls1, item_uuid, uuids2, cnt2) =>
    let lr : String × String × List ApiCall :=
      match r with
      | some res =>
        let tt2 := pyOrStr res.end_time tt1
        let ul := upload_logs_go c item_uuid tt2 (res.log.headD "")
          res.result res.failures "SKIPPED" res.log.enum
        (ul.1, tt2, ul.2)
      | none => ("SKIPPED", tt1, [])
    let dres := get_defect_type_locator c.settings (some c.defect_type)
    match dres.2 with
    | Except.error e => ⟨calls1 ++ lr.2.2 ++ dres.1, lr.2.1, uuids2, cnt2, some e⟩
    | Except.ok loc =>
      ⟨calls1 ++ lr.2.2 ++ dres.1 ++
          [ApiCall.putItemFinish item_uuid
            [("launchUuid", JVal.s c.launch_uuid), ("endTime", JVal.s lr.2.1),
             ("status", JVal.s lr.1),
             ("issue", JVal.obj [("issueType", JVal.s loc)])]],
        lr.2.1, uuids2, cnt2, none⟩

/-- One iteration of `for result, test in results_for_tests(...)`: resolve
the per-result and per-test fields (the `if result:` and `if test:`
blocks), then run `process_pair_core`.  A pair with neither a result nor a
test would leave `serial_number` unbound (`NameError`); `results_for_tests`
never yields one. -/
def process_pair (create_test : Bool) (c : PairCtx) (test_time : String)
    (uuids : List (Nat × String)) (cnt : Nat)
    (pr : Option TestResult × Option TestCase) : PairOut :=
  match pr with
  | (none, none) => ⟨[], test_time, uuids, cnt, some "NameError: serial_number"⟩
  | (some res, some t) =>
    let ia1 := guest_attributes c.attributes res.guest
    let tn0 : Option String := some res.name
    process_pair_core create_test c (pyOrStr res.start_time test_time) uuids cnt
      t.serial_number
      (if pyTruthyO tn0 then tn0 else some t.name)
      (t.summary.getD "")
      (if pyTruthyO t.web_link then t.web_link else none)
      (if pyTruthyO t.id then t.id else none)
      (some (t.environment.filter (fun kv => !(c.excludeVar c.envar_pattern kv.1))))
      (if t.contact ≠ [] then ia1 ++ [("contact", t.contact.headD "")] else ia1)
      (some res)
  | (some res, none) =>
    process_pair_core create_test c (pyOrStr res.start_time test_time) uuids cnt
      res.serial_number (some res.name) "" none none none
      (guest_attributes c.attributes res.guest) (some res)
  | (none, some t) =>
    process_pair_core create_test c test_time uuids cnt
      t.serial_number (some t.name) (t.summary.getD "")
      (if pyTruthyO t.web_link then t.web_link else none)
      (if pyTruthyO t.id then t.id else none)
      (some (t.environment.filter (fun kv => !(c.excludeVar c.envar_pattern kv.1))))
      (if t.contact ≠ [] then c.attributes ++ [("contact", t.contact.headD "")]
       else c.attributes)
      none

/-- The whole test loop: runs `process_pair` over the pairs; an exception
aborts the remaining iterations. -/
def run_pairs (create_test : Bool) (c : PairCtx) :
    PairOut → List (Option TestResult × Option TestCase) → PairOut
  | acc, [] => acc
  | acc, p :: ps =>
    match acc.err with
    | some _ => acc
    | none =>
      let po := process_pair create_test c acc.test_time acc.uuids acc.cnt p
      run_pairs create_test c ⟨acc.calls ++ po.calls, po.test_time, po.uuids, po.cnt, po.err⟩ ps

/-- Embeds `additional_upload = suite_id or launch_id or launch_uuid` (the
values read from the options and the persisted state at that point). -/
def additional_upload (o : Options) : Bool :=
  pyTruthyO o.upload_to_suite || pyTruthyO o.upload_to_launch ||
    pyTruthyO o.launch_uuid

/-- Claim C5's wording of the additional-upload predicate, written from the
specification: "`upload_to_suite`, `upload_to_launch`, or a previously
persisted `launch_uuid`/`suite_uuid` is present". -/
def additional_upload_spec (o : Options) : Bool :=
  pyTruthyO o.upload_to_suite || pyTruthyO o.upload_to_launch ||
    pyTruthyO o.launch_uuid || pyTruthyO o.suite_uuid

/-- The launch resolution block (create a launch, or resolve the supplied
suite/launch ids and the uuid-to-id mapping).  `resp_name` tracks the
`name` field of the last response bound to the local `response` variable
(`none` when no request ran, leaving `response` unbound). -/
structure LaunchPhase where
  calls : List ApiCall
  launch_uuid : Option String
  launch_id : Option String
  suite_uuid : Option String
  suite_name : String
  resp_name : Option (Option String)

/-- Embeds lines `if create_launch: ... else: ...` plus the uuid-to-id
resolution `if launch_uuid and not launch_id` of `execute_rp_import`. -/
def resolve_launch_phase (orc : Oracle) (create_launch : Bool)
    (launch_name launch_description : String)
    (launch_attributes : List (String × String)) (launch_time : String)
    (launch_rerun : Bool) (suite_id launch_id launch_uuid suite_uuid : Option String) :
    LaunchPhase :=
  let step1 : LaunchPhase :=
    if create_launch then
      ⟨[ApiCall.postLaunch
          [("name", JVal.s launch_name), ("description", JVal.s launch_description),
           ("attributes", attrsJ launch_attributes), ("startTime", JVal.s launch_time),
           ("rerun", JVal.b launch_rerun)]],
        some orc.launchCreateId, launch_id, suite_uuid, "", none⟩
    else
      let a : LaunchPhase :=
        if pyTruthyO suite_id then
          let sid := suite_id.getD ""
          ⟨[ApiCall.getItem sid], launch_uuid, orc.itemGetLaunchId sid,
            orc.itemGetUuid sid, pyStrOpt (orc.itemGetName sid),
            some (orc.itemGetName sid)⟩
        else ⟨[], launch_uuid, launch_id, suite_uuid, "", none⟩
      if pyTruthyO a.launch_id then
        let lid := a.launch_id.getD ""
        ⟨a.calls ++ [ApiCall.getLaunch lid], orc.launchGetUuid lid, a.launch_id,
          a.suite_uuid, a.suite_name, some (orc.launchGetName lid)⟩
      else a
  if pyTruthyO step1.launch_uuid && !pyTruthyO step1.launch_id then
    let lu := step1.launch_uuid.getD ""
    ⟨step1.calls ++ [ApiCall.getLaunchByUuid lu], step1.launch_uuid,
      orc.launchUuidGetId lu, step1.suite_uuid, step1.suite_name,
      some (orc.launchUuidGetName lu)⟩
  else step1

/-- Python `min` over a list of ISO timestamp strings (lexicographic). -/
def py_min_time (l : List String) (dflt : String) : String :=
  match l with
  | [] => dflt
  | x :: xs => xs.foldl (fun a b => if b < a then b else a) x

/-- The observable outcome of `execute_rp_import`: the REST calls issued in
order, the persisted `self.data` at return or abort, and the exception
aborting the plan, if any. -/
structure RPOutcome where
  calls : List ApiCall
  data : Options
  err : Option String

/-- The part of `execute_rp_import` after the launch block: the name-check
on the last response, the launch-uuid assertion, suite creation, the test
loop, and the suite/launch finish calls.  All values computed before the
launch block are passed in explicitly. -/
def execute_with_phase (o : Options) (env : Env) (orc : Oracle)
    (launch_time : String) (suite_per_plan launch_per_plan : Bool)
    (addl create_test create_suite create_launch : Bool)
    (envar_pattern defect_type : String)
    (attributes : List (String × String)) (suite_description : String)
    (ph : LaunchPhase) : RPOutcome :=
  if !create_launch && ph.resp_name.isNone then
    ⟨ph.calls, o, some "NameError: response"⟩
  else
    match ph.launch_uuid with
    | none => ⟨ph.calls, o, some "AssertionError: launch_uuid"⟩
    | some lu =>
      let data1 := { o with launch_uuid := some lu }
      let launch_url0 := o.url ++ "/ui/#" ++ o.project ++ "/launches/all/" ++
        pyStrOpt ph.launch_id
      let suiteStep : List ApiCall × Option String :=
        if create_suite then
          ([ApiCall.postSuite
              [("name", JVal.s env.plan.name), ("description", JVal.s suite_description),
               ("attributes", attrsJ attributes), ("startTime", JVal.s launch_time),
               ("launchUuid", JVal.s lu), ("type", JVal.s "suite")]],
            some orc.suiteCreateId)
        else ([], ph.suite_uuid)
      let suite_uuid2 := suiteStep.2
      let data2 := if pyTruthyO suite_uuid2 then { data1 with suite_uuid := suite_uuid2 }
        else data1
      let ctx : PairCtx := ⟨attributes, envar_pattern, defect_type, launch_per_plan,
        o.upload_to_launch, o.upload_to_suite, o.launch_description, suite_uuid2, lu,
        o.log_size_limit, o.traceback_size_limit, env.readLog, env.excludeVar,
        orc.settingsSubTypes, orc.itemCreateId⟩
      let acc := run_pairs create_test ctx ⟨[], launch_time, o.test_uuids, 0, none⟩ env.pairs
      let data3 := { data2 with test_uuids := acc.uuids }
      match acc.err with
      | some e => ⟨ph.calls ++ suiteStep.1 ++ acc.calls, data3, some e⟩
      | none =>
        let suiteFin : List ApiCall :=
          if create_suite then
            [ApiCall.putSuiteFinish
                ("item" ++ (if pyTruthyO suite_uuid2 then "/" ++ suite_uuid2.getD "" else ""))
                [("launchUuid", JVal.s lu), ("endTime", JVal.s acc.test_time)]]
          else []
        let data4 := if env.isLastPlan then { data3 with defect_type := none } else data3
        let fin_cond := (launch_per_plan || (suite_per_plan && env.isLastPlan)) && !addl
        let finCalls : List ApiCall :=
          if fin_cond then [ApiCall.putLaunchFinish lu [("endTime", JVal.s acc.test_time)]]
          else []
        let launch_url2 := if fin_cond then pyStrOpt orc.finishLink else launch_url0
        ⟨ph.calls ++ suiteStep.1 ++ acc.calls ++ suiteFin ++ finCalls,
          { data4 with launch_url := some launch_url2 }, none⟩

/-- Embeds `execute_rp_import` as a function of the options and persisted
state `o`, the run-side inputs `env`, and the remote responses `orc`. -/
def execute_rp_import (o : Options) (env : Env) (orc : Oracle) : RPOutcome :=
  let launch_time :=
    if env.executedResults.isEmpty then env.now
    else py_min_time (env.executedResults.map (fun r => pyOrStr r.start_time env.now)) env.now
  let suite_per_plan := o.suite_per_plan
  let launch_per_plan := if !o.launch_per_plan && !suite_per_plan then true
    else o.launch_per_plan
  let suite_id := o.upload_to_suite
  let launch_id := o.upload_to_launch
  let suite_uuid := o.suite_uuid
  let launch_uuid0 := o.launch_uuid
  let addl := additional_upload o
  let launch_uuid :=
    if !pyTruthyO launch_uuid0 && suite_per_plan && !env.isFirstPlan then
      match env.rpPhaseLaunchUuid with
      | some v => v
      | none => launch_uuid0
    else launch_uuid0
  let create_test := o.test_uuids.isEmpty
  let create_suite := suite_per_plan && !(pyTruthyO suite_uuid || pyTruthyO suite_id)
  let create_launch := !(pyTruthyO launch_uuid || pyTruthyO launch_id ||
    pyTruthyO suite_uuid || pyTruthyO suite_id)
  let launch_name := pyOrStr o.launch env.plan.name
  let launch_rerun := o.launch_rerun
  let envar_pattern := if o.exclude_variables.isEmpty then "$^" else o.exclude_variables
  let defect_type := pyOrStr o.defect_type ""
  let attributes := env.plan.fmf_context
  let launch_attributes := construct_launch_attributes suite_per_plan true
    (env.runPlans.map PlanInfo.fmf_context) attributes
  let ld0 := if suite_per_plan then pyOrStr o.launch_description ""
    else append_description o.launch_description (pyOrStr env.plan.summary "")
  let sd0 := if suite_per_plan then
      append_description o.launch_description (pyOrStr env.plan.summary "")
    else ""
  let launch_description := if pyTruthyO o.artifacts_url then
      ld0 ++ "<br>" ++ o.artifacts_url.getD "" else ld0
  let suite_description := if pyTruthyO o.artifacts_url then
      sd0 ++ "<br>" ++ o.artifacts_url.getD "" else sd0
  let ph := resolve_launch_phase orc create_launch launch_name launch_description
    launch_attributes launch_time launch_rerun suite_id launch_id launch_uuid suite_uuid
  execute_with_phase o env orc launch_time suite_per_plan launch_per_plan
    addl create_test create_suite create_launch envar_pattern defect_type
    attributes suite_description ph

/-- The launch-finish condition of the source (`launch_per_plan` after
defaulting, or suite-per-plan on the run's last plan, and not an
additional upload). -/
def launch_finish_condition (o : Options) (isLast : Bool) : Bool :=
  let lpp := if !o.launch_per_plan && !o.suite_per_plan then true else o.launch_per_plan
  (lpp || (o.suite_per_plan && isLast)) && !additional_upload o

/-- Recognizes the `PUT launch/&lcub;uuid&rcub;/finish` call. -/
def isLaunchFinishCall : ApiCall → Bool
  | ApiCall.putLaunchFinish _ _ => true
  | _ => false

/-- Recognizes the creation of a test item (`POST item...` with type
`step`). -/
def is_test_item_create : ApiCall → Bool
  | ApiCall.postTestItem _ _ => true
  | _ => false

/-- Lookup in a JSON object payload. -/
def lookupJ (k : String) : List (String × JVal) → Option JVal
  | [] => none
  | kv :: rest => if kv.1 == k then some kv.2 else lookupJ k rest

/-- The `status` fields of the test-item finish calls of a trace. -/
def finish_statuses (calls : List ApiCall) : List (Option JVal) :=
  calls.filterMap (fun c => match c with
    | ApiCall.putItemFinish _ payload => some (lookupJ "status" payload)
    | _ => none)

/-- The payloads of the `POST log/entry` calls of a trace. -/
def log_entry_payloads (calls : List ApiCall) : List (List (String × JVal)) :=
  calls.filterMap (fun c => match c with
    | ApiCall.postLogEntry payload => some payload
    | _ => none)

/-- The `level` field of a log-entry payload, as a string. -/
def entry_level (payload : List (String × JVal)) : Option String :=
  match lookupJ "level" payload with
  | some (JVal.s s) => some s
  | _ => none

/-- The serial number a pair is keyed under (the test's when a test is
present, else the result's). -/
def pair_serial : Option TestResult × Option TestCase → Option Nat
  | (_, some t) => some t.serial_number
  | (some r, none) => some r.serial_number
  | (none, none) => none

/-- Claim C8's amended description of the log uploads of one result,
written declaratively: one entry per readable log, at level INFO when the
log's path equals the first log's path and TRACE otherwise, sanitized
under the general log limit; and after the entry of the first log, when it
is readable and the outcome maps to FAILED, one ERROR entry with the
extracted failure text sanitized under the traceback limit. -/
def amended_log_entries (c : PairCtx) (item_uuid test_time : String)
    (r : TestResult) : List (List (String × JVal)) :=
  (r.log.enum.map (fun ip =>
    match c.readLog ip.2 with
    | none => []
    | some lg =>
      [("message", JVal.codes (filter_log lg ⟨c.log_size_limit, false⟩)),
       ("itemUuid", JVal.s item_uuid), ("launchUuid", JVal.s c.launch_uuid),
       ("level", JVal.s (if ip.2 == r.log.headD "" then "INFO" else "TRACE")),
       ("time", JVal.s test_time)] ::
      (if ip.1 == 0 && tmt_to_rp_result_status r.result == "FAILED" then
        [[("message", JVal.codes (filter_log (r.failures lg) ⟨c.traceback_size_limit, true⟩)),
          ("itemUuid", JVal.s item_uuid), ("launchUuid", JVal.s c.launch_uuid),
          ("level", JVal.s "ERROR"), ("time", JVal.s test_time)]]
       else []))).flatten

/-- Concrete defect sub-types used by claim C4's witness. -/
def d4w : DefectTypes :=
  ⟨[("To Investigate", "ti001")], [("No Defect", "nd001")], [], [], []⟩

/-- Concrete loop context used by the witnesses and counterexamples of the
per-test claims: no extra attributes, empty defect type, readable logs
`[65, 66]` for every path. -/
def cW : PairCtx :=
  ⟨[], "$^", "", true, none, none, none, none, "LU", 100, 50,
    (fun _ => some [65, 66]), (fun _ _ => false), none,
    (fun n => "iu" ++ toString n)⟩

/-- A guest with all-default values (adds no attributes). -/
def gW : Guest := ⟨none, "default-0", none⟩

/-- A passed result with one log, used by claim C2's witness. -/
def rW : TestResult :=
  ⟨"t1", 1, some "2024-01-01T00:00:00", some "2024-01-01T00:01:00", ["p"], gW,
    ResultOutcome.pass, fun l => l⟩

/-- A passed result with no logs at all, used by claim C2's counterexample. -/
def rNoLogW : TestResult :=
  ⟨"t2", 2, some "2024-01-01T00:00:00", none, [], gW, ResultOutcome.pass, fun l => l⟩

/-- A passed result whose second log has the same path as the first, used by
claim C8's counterexample. -/
def rDupW : TestResult :=
  ⟨"t3", 3, none, none, ["p", "p"], gW, ResultOutcome.pass, fun l => l⟩

/-- A failed result with one log, used by claim C8's witness material. -/
def rFailW : TestResult :=
  ⟨"t4", 4, none, none, ["q"], gW, ResultOutcome.fail, fun l => l ++ [33]⟩

/-- A test case with serial number 1, used by the per-test witnesses. -/
def tW : TestCase := ⟨1, "t1", [], none, none, none, []⟩

/-- Options for the execute-level witnesses: defaults everywhere, empty
persisted state. -/
def oW : Options :=
  ⟨"http://rp", "proj", none, none, false, false, none, none, false, none,
    100, 50, "^TMT_.*", none, none, none, none, []⟩

/-- Options whose only persisted state is a `suite_uuid`, used by claim
C5's counterexample. -/
def oSuiteOnlyW : Options :=
  ⟨"http://rp", "proj", none, none, false, false, none, none, false, none,
    100, 50, "^TMT_.*", none, none, none, some "S", []⟩

/-- Run-side inputs for the execute-level witnesses: a single plan run with
no tests. -/
def envW : Env :=
  ⟨⟨"plan1", none, []⟩, [⟨"plan1", none, []⟩], true, true, none, [], [],
    (fun _ => some [65]), (fun _ _ => false), "2024-01-01T00:00:00"⟩

/-- Run-side inputs with two idle tests (serial numbers 1 and 2), used by
claim C7's witness. -/
def env7W : Env :=
  ⟨⟨"plan1", none, []⟩, [⟨"plan1", none, []⟩], true, true, none,
    [(none, some tW), (none, some ⟨2, "t2", [], none, none, none, []⟩)], [],
    (fun _ => some [65]), (fun _ _ => false), "2024-01-01T00:00:00"⟩

/-- Remote responses for the execute-level witnesses. -/
def orcW : Oracle :=
  ⟨"LCU", (fun _ => some "SU"), (fun _ => some "SN"), (fun _ => some "LID"),
    (fun _ => some "LGU"), (fun _ => some "LGN"), (fun _ => some "77"),
    (fun _ => some "LN"), "SCU", (fun n => "iu" ++ toString n), none,
    some "http://rp/link"⟩

/-- The kinds of calls the per-test loop can emit: test-item creation
(only when `create_test` holds), log entries, settings fetches, and
test-item finishes. -/
def loop_call_ok (create_test : Bool) : ApiCall → Bool
  | ApiCall.postTestItem _ _ => create_test
  | ApiCall.postLogEntry _ => true
  | ApiCall.getSettings => true
  | ApiCall.putItemFinish _ _ => true
  | _ => false

/-! ## Helper lemmas -/

theorem isEmpty_false_of_ne_empty {s : String} (h : s ≠ "") : s.isEmpty = false := by
  rw [Bool.eq_false_iff]
  intro hc
  exact h ((String.isEmpty_iff s).mp hc)

theorem lookupStr_iff_mem {l : List (String × String)} (h : nodupKeys l)
    (k v : String) : (k, v) ∈ l ↔ lookupStr k l = some v := by
  induction l with
  | nil => simp [lookupStr]
  | cons kv rest ih =>
    obtain ⟨a, b⟩ := kv
    have hkey : a ∉ rest.map Prod.fst := by
      have h' := h
      unfold nodupKeys at h'
      simp only [List.map_cons, List.nodup_cons] at h'
      exact h'.1
    have hrest : nodupKeys rest := by
      have h' := h
      unfold nodupKeys at h'
      simp only [List.map_cons, List.nodup_cons] at h'
      exact h'.2
    unfold lookupStr
    by_cases he : a = k
    · subst he
      simp only [beq_self_eq_true, if_true, List.mem_cons, Option.some.injEq,
        Prod.mk.injEq, true_and]
      constructor
      · rintro (rfl | hm)
        · rfl
        · exact absurd (List.mem_map_of_mem Prod.fst hm) (by simpa using hkey)
      · intro hv
        left
        exact hv.symm
    · have hb : (a == k) = false := by simp [he]
      rw [hb]
      simp only [Bool.false_eq_true, if_false, List.mem_cons, Prod.mk.injEq]
      rw [← ih hrest]
      constructor
      · rintro (⟨rfl, _⟩ | hm)
        · exact absurd rfl he
        · exact hm
      · intro hm
        right
        exact hm

theorem nodupKeys_intersect_step (d c : List (String × String))
    (h : nodupKeys c) : nodupKeys (intersect_step d c) := by
  unfold nodupKeys intersect_step at *
  exact h.sublist ((List.filter_sublist c).map Prod.fst)

theorem mem_intersect_step (d c : List (String × String)) (k v : String) :
    (k, v) ∈ intersect_step d c ↔ (k, v) ∈ c ∧ lookupStr k d = some v := by
  unfold intersect_step
  rw [List.mem_filter]
  simp

theorem foldl_intersect_step_mem :
    ∀ (rest : List (List (String × String))) (first : List (String × String)),
      (∀ p ∈ first :: rest, nodupKeys p) → ∀ k v : String,
        ((k, v) ∈ rest.foldl intersect_step first ↔ ∀ p ∈ first :: rest, (k, v) ∈ p) := by
  intro rest
  induction rest with
  | nil =>
    intro first _ k v
    simp
  | cons c rest ih =>
    intro first h k v
    have hc : nodupKeys c := h c (by simp)
    have hfirst : nodupKeys first := h first (by simp)
    have h' : ∀ p ∈ intersect_step first c :: rest, nodupKeys p := by
      intro p hp
      rcases List.mem_cons.mp hp with rfl | hp
      · exact nodupKeys_intersect_step first c hc
      · exact h p (by simp [hp])
    have hfold : (c :: rest).foldl intersect_step first =
        rest.foldl intersect_step (intersect_step first c) := rfl
    rw [hfold, ih (intersect_step first c) h' k v]
    constructor
    · intro hall p hp
      have hm0 := hall (intersect_step first c) (by simp)
      rw [mem_intersect_step] at hm0
      rcases List.mem_cons.mp hp with heq | hp2
      · rw [heq]
        exact (lookupStr_iff_mem hfirst k v).mpr hm0.2
      · rcases List.mem_cons.mp hp2 with heq2 | hp3
        · rw [heq2]
          exact hm0.1
        · exact hall p (by simp [hp3])
    · intro hall p hp
      rcases List.mem_cons.mp hp with heq | hp2
      · rw [heq, mem_intersect_step]
        exact ⟨hall c (by simp), (lookupStr_iff_mem hfirst k v).mp (hall first (by simp))⟩
      · exact hall p (by simp [hp2])

/-! ## Claims about the sanitization pipeline -/

/-- Claim C1 (code-bug evidence).  The size filter does not measure the
byte-length of the text: it measures `len(data)`, the code-point count.
The text `éé` (code points `[233, 233]`) has UTF-8 byte-length 4, which
exceeds a 3-byte limit, yet the filter returns it unchanged because its
code-point count 2 does not exceed 3.  On pure-ASCII text, where the two
measures agree, the banner-and-truncate behavior of the claim does hold,
as the 2000/1000 instance shows. -/
theorem c1_size_filter_measures_codepoints_not_bytes :
    utf8ByteLength [233, 233] = 4 ∧ 3 < utf8ByteLength [233, 233] ∧
    filter_log_per_size [233, 233] ⟨3, false⟩ = [233, 233] ∧
    filter_log_per_size (List.replicate 2000 97) ⟨1000, false⟩ =
      sizeBannerCodes 2000 1000 false ++ List.replicate 1000 97 := by
  refine ⟨rfl, by decide, rfl, ?_⟩
  have hlen : (List.replicate 2000 97).length = 2000 := List.length_replicate 2000 97
  have hcond : (1000 : Nat) < (List.replicate 2000 97).length := by
    rw [hlen]; decide
  unfold filter_log_per_size
  rw [if_pos hcond, hlen]
  congr 1

/-- Claim C6: `_filter_log` applies the size filter first and the
invalid-character filter second, and every code point of its output lies in
the XML-safe ranges; in particular no surrogate code point (U+D800 to
U+DFFF) survives, for any input and any limit. -/
theorem c6_pipeline_output_is_xml_safe (data : List Nat) (st : LogFilterSettings) :
    filter_log data st = filter_invalid_chars (filter_log_per_size data st) st ∧
    ∀ c ∈ filter_log data st, validXmlCodepoint c = true ∧ ¬(0xD800 ≤ c ∧ c ≤ 0xDFFF) := by
  constructor
  · rfl
  · intro c hc
    have hc' : c ∈ filter_invalid_chars (filter_log_per_size data st) st := hc
    unfold filter_invalid_chars at hc'
    have h2 := (List.mem_filter.mp hc').2
    refine ⟨h2, ?_⟩
    unfold validXmlCodepoint at h2
    simp only [Bool.or_eq_true, Bool.and_eq_true, decide_eq_true_eq, beq_iff_eq] at h2
    omega

/-- Witness for C6: code point 72 of the concrete input `[72, 55296]`
(which contains the lone surrogate U+D800) survives the pipeline and is
XML-safe. -/
theorem c6_witness : validXmlCodepoint 72 = true ∧ ¬(0xD800 ≤ 72 ∧ 72 ≤ 0xDFFF) :=
  (c6_pipeline_output_is_xml_safe [72, 55296] ⟨5, false⟩).2 72 (by decide)

/-! ## Claim about the topology flags -/

/-- Claim C9: after `check_options` and the defaulting in
`execute_rp_import`, exactly one of launch-per-plan and suite-per-plan is
effective; both flags requested yields launch-per-plan with suite-per-plan
disabled; neither yields launch-per-plan. -/
theorem c9_exactly_one_topology (lpp spp : Bool) :
    (((effective_topology (check_options lpp spp).1 (check_options lpp spp).2).1 = true ∧
      (effective_topology (check_options lpp spp).1 (check_options lpp spp).2).2 = false) ∨
     ((effective_topology (check_options lpp spp).1 (check_options lpp spp).2).1 = false ∧
      (effective_topology (check_options lpp spp).1 (check_options lpp spp).2).2 = true)) ∧
    effective_topology (check_options true true).1 (check_options true true).2 = (true, false) ∧
    effective_topology (check_options false false).1 (check_options false false).2 = (true, false) := by
  cases lpp <;> cases spp <;> decide

/-! ## Claims about the defect-type resolver -/

/-- Claim C10: when the settings response carries no (or a falsy)
`subTypes` mapping, resolution with a non-empty name returns the default
locator `ti001` (after issuing the settings fetch) instead of raising; an
error can only arise when sub-types are present. -/
theorem c10_missing_subtypes_falls_back (name : String) (hn : name.isEmpty = false) :
    (get_defect_type_locator none (some name)).2 = Except.ok "ti001" ∧
    (get_defect_type_locator none (some name)).1 = [ApiCall.getSettings] ∧
    ∀ (st : Option DefectTypes) (dt : Option String) (e : String),
      (get_defect_type_locator st dt).2 = Except.error e → ∃ d, st = some d := by
  refine ⟨?_, ?_, ?_⟩
  · unfold get_defect_type_locator
    simp [pyTruthyO, hn]
  · unfold get_defect_type_locator
    simp [pyTruthyO, hn]
  · intro st dt e h
    cases st with
    | some d => exact ⟨d, rfl⟩
    | none =>
      unfold get_defect_type_locator at h
      split at h <;> simp_all

/-- Witness for C10 at the concrete name `x`. -/
theorem c10_witness : (get_defect_type_locator none (some "x")).2 = Except.ok "ti001" :=
  (c10_missing_subtypes_falls_back "x" (by decide)).1

theorem search_defect_groups_flatten (name : String) :
    ∀ gs : List (List (String × String)),
      (∀ g ∈ gs, ∀ dt ∈ g, dt.2 ≠ "") →
      search_defect_groups name gs =
        ((gs.flatten.filter (fun dt => pyLowerCodes dt.1 == pyLowerCodes name)).map
          Prod.snd).head? := by
  intro gs
  induction gs with
  | nil => intro _; rfl
  | cons g rest ih =>
    intro h
    have hg : ∀ dt ∈ g, dt.2 ≠ "" := h g (by simp)
    have hrest : ∀ g' ∈ rest, ∀ dt ∈ g', dt.2 ≠ "" := fun g' hgm => h g' (by simp [hgm])
    have hflt : (g :: rest).flatten.filter (fun dt => pyLowerCodes dt.1 == pyLowerCodes name) =
        g.filter (fun dt => pyLowerCodes dt.1 == pyLowerCodes name) ++
          rest.flatten.filter (fun dt => pyLowerCodes dt.1 == pyLowerCodes name) := by
      rw [List.flatten_cons, List.filter_append]
    simp only [search_defect_groups]
    cases hf : g.filter (fun dt => pyLowerCodes dt.1 == pyLowerCodes name) with
    | nil =>
      have hgl : group_locator name g = none := by
        unfold group_locator
        rw [hf]
        rfl
      rw [hgl, hflt, hf]
      simp only [pyTruthyO, Bool.false_eq_true, if_false, List.nil_append]
      cases rest with
      | nil => rfl
      | cons r rs => exact ih hrest
    | cons x xs =>
      have hxg : x ∈ g.filter (fun dt => pyLowerCodes dt.1 == pyLowerCodes name) := by
        rw [hf]
        exact List.mem_cons_self x xs
      have hx2 : x.2 ≠ "" := hg x (List.mem_filter.mp hxg).1
      have hgl : group_locator name g = some x.2 := by
        unfold group_locator
        rw [hf]
        rfl
      rw [hgl, hflt, hf]
      simp [pyTruthyO, isEmpty_false_of_ne_empty hx2]

/-- Claim C4 (amended).  With an empty or absent name the resolver returns
the fixed default locator `ti001` immediately, issuing no settings fetch
(the source returns before `rp_api_get(session, "settings")`); with a
non-empty name it fetches the settings once and searches the groups
to-investigate, no-defect, system-issue, automation-bug, product-bug in
that order, matching the name case-insensitively against each sub-type's
long name, the first match winning, and it raises the configuration error
exactly when no group contains a match (sub-type locators are the
service's non-empty locator strings). -/
theorem c4_defect_type_resolution (d : DefectTypes) (name : String)
    (hn : name.isEmpty = false)
    (hloc : ∀ g ∈ defect_groups d, ∀ dt ∈ g, dt.2 ≠ "") :
    (get_defect_type_locator (some d) (some name)).1 = [ApiCall.getSettings] ∧
    (∀ st : Option DefectTypes,
      (get_defect_type_locator st none).1 = [] ∧
      (get_defect_type_locator st none).2 = Except.ok "ti001" ∧
      (get_defect_type_locator st (some "")).1 = [] ∧
      (get_defect_type_locator st (some "")).2 = Except.ok "ti001") ∧
    (∀ loc : String,
      (((defect_groups d).flatten.filter
        (fun dt => pyLowerCodes dt.1 == pyLowerCodes name)).map Prod.snd).head? = some loc →
      (get_defect_type_locator (some d) (some name)).2 = Except.ok loc) ∧
    ((∃ e, (get_defect_type_locator (some d) (some name)).2 = Except.error e) ↔
      (((defect_groups d).flatten.filter
        (fun dt => pyLowerCodes dt.1 == pyLowerCodes name)).map Prod.snd).head? = none) := by
  have hsearch := search_defect_groups_flatten name (defect_groups d) hloc
  have hTr : (!pyTruthyO (some name)) = false := by simp [pyTruthyO, hn]
  have hred : get_defect_type_locator (some d) (some name) =
      (if pyTruthyO (search_defect_groups name (defect_groups d)) then
        ([ApiCall.getSettings],
          Except.ok ((search_defect_groups name (defect_groups d)).getD ""))
       else ([ApiCall.getSettings],
         Except.error "ConfigurationError: defect type is not defined in the project")) := by
    unfold get_defect_type_locator
    rw [hTr]
    rfl
  refine ⟨?_, ?_, ?_, ?_⟩
  · rw [hred]
    split <;> rfl
  · intro st
    cases st <;> exact ⟨rfl, rfl, rfl, rfl⟩
  · intro loc hfm
    have hmem : loc ∈ (((defect_groups d).flatten.filter
        (fun dt => pyLowerCodes dt.1 == pyLowerCodes name)).map Prod.snd) :=
      List.mem_of_mem_head? (Option.mem_def.mpr hfm)
    obtain ⟨dt, hdt, hdt2⟩ := List.mem_map.mp hmem
    have hdtfl := (List.mem_filter.mp hdt).1
    obtain ⟨g, hgmem, hdtg⟩ := List.mem_flatten.mp hdtfl
    have hne : loc ≠ "" := by
      rw [← hdt2]
      exact hloc g hgmem dt hdtg
    have hTr2 : pyTruthyO (search_defect_groups name (defect_groups d)) = true := by
      rw [hsearch, hfm]
      simp [pyTruthyO, isEmpty_false_of_ne_empty hne]
    rw [hred, if_pos hTr2, hsearch, hfm]
    rfl
  · rw [hred]
    cases hfm : (((defect_groups d).flatten.filter
        (fun dt => pyLowerCodes dt.1 == pyLowerCodes name)).map Prod.snd).head? with
    | none =>
      have hTr2 : pyTruthyO (search_defect_groups name (defect_groups d)) = false := by
        rw [hsearch, hfm]
        rfl
      rw [if_neg (by simp [hTr2])]
      simp
    | some loc =>
      have hmem : loc ∈ (((defect_groups d).flatten.filter
          (fun dt => pyLowerCodes dt.1 == pyLowerCodes name)).map Prod.snd) :=
        List.mem_of_mem_head? (Option.mem_def.mpr hfm)
      obtain ⟨dt, hdt, hdt2⟩ := List.mem_map.mp hmem
      obtain ⟨g, hgmem, hdtg⟩ := List.mem_flatten.mp (List.mem_filter.mp hdt).1
      have hne : loc ≠ "" := by
        rw [← hdt2]
        exact hloc g hgmem dt hdtg
      have hTr2 : pyTruthyO (search_defect_groups name (defect_groups d)) = true := by
        rw [hsearch, hfm]
        simp [pyTruthyO, isEmpty_false_of_ne_empty hne]
      rw [if_pos hTr2]
      simp

/-- Counterexample to claim C4 as stated: on the empty-name path the
settings fetch is *not* issued (the call trace is empty), while the claim
says the fetch is still issued with its result ignored. -/
theorem c4_counterexample :
    (get_defect_type_locator (some d4w) (some "")).1 = [] ∧
    (get_defect_type_locator (some d4w) (some "")).2 = Except.ok "ti001" ∧
    (get_defect_type_locator (some d4w) none).1 = [] :=
  ⟨rfl, rfl, rfl⟩

/-- Witness for C4: the concrete name `no defect` resolves through the
second group to `nd001` after one settings fetch. -/
theorem c4_witness :
    (get_defect_type_locator (some d4w) (some "no defect")).1 = [ApiCall.getSettings] ∧
    (get_defect_type_locator (some d4w) (some "no defect")).2 = Except.ok "nd001" := by
  have h := c4_defect_type_resolution d4w "no defect" (by decide) (by decide)
  exact ⟨h.1, h.2.2.1 "nd001" (by decide)⟩

/-! ## Claim about the attribute aggregator -/

/-- Claim C3: in suite-per-plan mode the launch attributes are the left
fold of `intersect_step` over the per-plan first-value context maps, and a
pair belongs to the result exactly when every plan's map carries it; the
three-map example yields exactly `[("a", "1")]`; in non-suite-per-plan
mode (or without a run) the passed attributes are returned unreduced. -/
theorem c3_launch_attribute_intersection (first : List (String × String))
    (rest : List (List (String × String))) (attributes : List (String × String))
    (h : ∀ p ∈ first :: rest, nodupKeys p) :
    (∀ k v : String,
      ((k, v) ∈ construct_launch_attributes true true (first :: rest) attributes ↔
        ∀ p ∈ first :: rest, lookupStr k p = some v)) ∧
    (∀ (spp has_run : Bool) (plans : List (List (String × String))),
        spp = false ∨ has_run = false →
        construct_launch_attributes spp has_run plans attributes = attributes) ∧
    construct_launch_attributes true true
        [[("a", "1"), ("b", "2")], [("a", "1"), ("b", "3")], [("a", "1"), ("b", "2")]]
        attributes = [("a", "1")] := by
  refine ⟨?_, ?_, ?_⟩
  · intro k v
    have hc : construct_launch_attributes true true (first :: rest) attributes =
        rest.foldl intersect_step first := rfl
    rw [hc, foldl_intersect_step_mem rest first h k v]
    constructor
    · intro hall p hp
      exact (lookupStr_iff_mem (h p hp) k v).mp (hall p hp)
    · intro hall p hp
      exact (lookupStr_iff_mem (h p hp) k v).mpr (hall p hp)
  · intro spp hr plans hor
    rcases hor with rfl | rfl
    · rfl
    · cases spp <;> rfl
  · rfl

/-- Witness for C3 at the three-map example and the pair `("a", "1")`. -/
theorem c3_witness :
    (("a", "1") ∈ construct_launch_attributes true true
        [[("a", "1"), ("b", "2")], [("a", "1"), ("b", "3")], [("a", "1"), ("b", "2")]] [] ↔
      ∀ p ∈ [[("a", "1"), ("b", "2")], [("a", "1"), ("b", "3")], [("a", "1"), ("b", "2")]],
        lookupStr "a" p = some "1") :=
  (c3_launch_attribute_intersection [("a", "1"), ("b", "2")]
    [[("a", "1"), ("b", "3")], [("a", "1"), ("b", "2")]] [] (by decide)).1 "a" "1"

/-! ## Lemmas about the per-test loop -/

theorem defect_trace_cases (st : Option DefectTypes) (dt : Option String) :
    (get_defect_type_locator st dt).1 = [] ∨
    (get_defect_type_locator st dt).1 = [ApiCall.getSettings] := by
  unfold get_defect_type_locator
  split
  · exact Or.inl rfl
  · cases st with
    | none => exact Or.inr rfl
    | some d =>
      simp only []
      split
      · exact Or.inr rfl
      · exact Or.inr rfl

theorem upload_logs_all_log_entries (c : PairCtx) (iu tt hp : String)
    (outc : ResultOutcome) (ff : List Nat → List Nat) :
    ∀ (l : List (Nat × String)) (s0 : String),
      ∀ x ∈ (upload_logs_go c iu tt hp outc ff s0 l).2, ∃ pl, x = ApiCall.postLogEntry pl := by
  intro l
  induction l with
  | nil => intro s0 x hx; simp [upload_logs_go] at hx
  | cons ip rest ih =>
    intro s0 x hx
    unfold upload_logs_go at hx
    cases hread : c.readLog ip.2 with
    | none =>
      rw [hread] at hx
      exact ih s0 x hx
    | some lg =>
      rw [hread] at hx
      simp only [List.mem_cons, List.mem_append] at hx
      rcases hx with rfl | hx | hx
      · exact ⟨_, rfl⟩
      · by_cases hc : (ip.1 == 0 && (tmt_to_rp_result_status outc == "FAILED")) = true
        · rw [if_pos hc] at hx
          simp only [List.mem_singleton] at hx
          exact ⟨_, hx⟩
        · rw [if_neg hc] at hx
          simp at hx
      · exact ih _ x hx

theorem upload_logs_status (c : PairCtx) (iu tt hp : String)
    (outc : ResultOutcome) (ff : List Nat → List Nat) :
    ∀ (l : List (Nat × String)) (s0 : String),
      (upload_logs_go c iu tt hp outc ff s0 l).1 =
        if l.any (fun ip => (c.readLog ip.2).isSome) then tmt_to_rp_result_status outc
        else s0 := by
  intro l
  induction l with
  | nil => intro s0; simp [upload_logs_go]
  | cons ip rest ih =>
    intro s0
    rw [List.any_cons]
    unfold upload_logs_go
    cases hread : c.readLog ip.2 with
    | none =>
      simp only [hread, Option.isSome_none, Bool.false_or]
      exact ih s0
    | some lg =>
      simp only [hread, Option.isSome_some, Bool.true_or, if_true]
      rw [ih (tmt_to_rp_result_status outc), ite_self]

theorem enumFrom_any_snd (f : String → Bool) :
    ∀ (l : List String) (n : Nat),
      (l.enumFrom n).any (fun ip => f ip.2) = l.any f := by
  intro l
  induction l with
  | nil => intro n; rfl
  | cons p rest ih =>
    intro n
    simp only [List.enumFrom, List.any_cons, ih (n + 1)]

theorem core_err_eq (c : PairCtx) (tt1 : String) (uu : List (Nat × String))
    (cnt serial : Nat) (tn : Option String) (td : String) (tl tid : Option String)
    (ev : Option (List (String × String))) (ia : List (String × String))
    (ro : Option TestResult) :
    (process_pair_core true c tt1 uu cnt serial tn td tl tid ev ia ro).err =
      match (get_defect_type_locator c.settings (some c.defect_type)).2 with
      | Except.error e => some e
      | Except.ok _ => none := by
  cases hdef : (get_defect_type_locator c.settings (some c.defect_type)).2 with
  | error e =>
    simp only [process_pair_core, hdef]
    rfl
  | ok loc =>
    simp only [process_pair_core, hdef]
    rfl

theorem core_calls_ok (c : PairCtx) (tt1 : String) (uu : List (Nat × String))
    (cnt serial : Nat) (tn : Option String) (td : String) (tl tid : Option String)
    (ev : Option (List (String × String))) (ia : List (String × String))
    (r : TestResult) (loc : String)
    (hdef : (get_defect_type_locator c.settings (some c.defect_type)).2 = Except.ok loc) :
    ∃ p pl, (process_pair_core true c tt1 uu cnt serial tn td tl tid ev ia (some r)).calls =
      ApiCall.postTestItem p pl ::
        ((upload_logs_go c (c.itemCreateId cnt) (pyOrStr r.end_time tt1) (r.log.headD "")
            r.result r.failures "SKIPPED" r.log.enum).2 ++
          ((get_defect_type_locator c.settings (some c.defect_type)).1 ++
            [ApiCall.putItemFinish (c.itemCreateId cnt)
              [("launchUuid", JVal.s c.launch_uuid),
               ("endTime", JVal.s (pyOrStr r.end_time tt1)),
               ("status", JVal.s (upload_logs_go c (c.itemCreateId cnt)
                 (pyOrStr r.end_time tt1) (r.log.headD "")
                 r.result r.failures "SKIPPED" r.log.enum).1),
               ("issue", JVal.obj [("issueType", JVal.s loc)])]])) := by
  refine ⟨"item" ++ (if pyTruthyO c.suite_uuid then "/" ++ c.suite_uuid.getD "" else ""),
    item_payload c tn
      (if (pyTruthyO c.upload_to_launch && c.launch_per_plan) || pyTruthyO c.upload_to_suite
       then append_description c.launch_description td else td) ia ev tl tid tt1, ?_⟩
  simp only [process_pair_core, hdef]
  simp [List.append_assoc]

theorem core_calls_idle (c : PairCtx) (tt1 : String) (uu : List (Nat × String))
    (cnt serial : Nat) (tn : Option String) (td : String) (tl tid : Option String)
    (ev : Option (List (String × String))) (ia : List (String × String)) (loc : String)
    (hdef : (get_defect_type_locator c.settings (some c.defect_type)).2 = Except.ok loc) :
    ∃ p pl, (process_pair_core true c tt1 uu cnt serial tn td tl tid ev ia none).calls =
      ApiCall.postTestItem p pl ::
        ((get_defect_type_locator c.settings (some c.defect_type)).1 ++
          [ApiCall.putItemFinish (c.itemCreateId cnt)
            [("launchUuid", JVal.s c.launch_uuid), ("endTime", JVal.s tt1),
             ("status", JVal.s "SKIPPED"),
             ("issue", JVal.obj [("issueType", JVal.s loc)])]]) := by
  refine ⟨"item" ++ (if pyTruthyO c.suite_uuid then "/" ++ c.suite_uuid.getD "" else ""),
    item_payload c tn
      (if (pyTruthyO c.upload_to_launch && c.launch_per_plan) || pyTruthyO c.upload_to_suite
       then append_description c.launch_description td else td) ia ev tl tid tt1, ?_⟩
  simp only [process_pair_core, hdef]
  simp [List.append_assoc]

theorem finish_statuses_append (l1 l2 : List ApiCall) :
    finish_statuses (l1 ++ l2) = finish_statuses l1 ++ finish_statuses l2 := by
  unfold finish_statuses
  exact List.filterMap_append l1 l2 _

theorem finish_statuses_cons_other (x : ApiCall) (l : List ApiCall)
    (h : ∀ u pl, x ≠ ApiCall.putItemFinish u pl) :
    finish_statuses (x :: l) = finish_statuses l := by
  unfold finish_statuses
  rw [List.filterMap_cons_none]
  cases x with
  | putItemFinish u pl => exact absurd rfl (h u pl)
  | postLaunch pl => rfl
  | getItem i => rfl
  | getLaunch i => rfl
  | getLaunchByUuid u => rfl
  | postSuite pl => rfl
  | postTestItem p pl => rfl
  | postLogEntry pl => rfl
  | getSettings => rfl
  | putSuiteFinish p pl => rfl
  | putLaunchFinish u pl => rfl

theorem finish_statuses_logs (c : PairCtx) (iu tt hp : String) (outc : ResultOutcome)
    (ff : List Nat → List Nat) (s0 : String) (l : List (Nat × String)) :
    finish_statuses (upload_logs_go c iu tt hp outc ff s0 l).2 = [] := by
  unfold finish_statuses
  apply List.filterMap_eq_nil_iff.mpr
  intro a ha
  obtain ⟨pl, rfl⟩ := upload_logs_all_log_entries c iu tt hp outc ff l s0 a ha
  rfl

theorem finish_statuses_defect_trace (st : Option DefectTypes) (dt : Option String) :
    finish_statuses (get_defect_type_locator st dt).1 = [] := by
  rcases defect_trace_cases st dt with h | h <;> rw [h] <;> rfl

theorem log_entry_payloads_append (l1 l2 : List ApiCall) :
    log_entry_payloads (l1 ++ l2) = log_entry_payloads l1 ++ log_entry_payloads l2 := by
  unfold log_entry_payloads
  exact List.filterMap_append l1 l2 _

theorem log_entry_payloads_cons_other (x : ApiCall) (l : List ApiCall)
    (h : ∀ pl, x ≠ ApiCall.postLogEntry pl) :
    log_entry_payloads (x :: l) = log_entry_payloads l := by
  unfold log_entry_payloads
  rw [List.filterMap_cons_none]
  cases x with
  | postLogEntry pl => exact absurd rfl (h pl)
  | postLaunch pl => rfl
  | getItem i => rfl
  | getLaunch i => rfl
  | getLaunchByUuid u => rfl
  | postSuite pl => rfl
  | postTestItem p pl => rfl
  | getSettings => rfl
  | putItemFinish u pl => rfl
  | putSuiteFinish p pl => rfl
  | putLaunchFinish u pl => rfl

theorem log_entry_payloads_defect_trace (st : Option DefectTypes) (dt : Option String) :
    log_entry_payloads (get_defect_type_locator st dt).1 = [] := by
  rcases defect_trace_cases st dt with h | h <;> rw [h] <;> rfl

theorem core_finish_status (c : PairCtx) (tt1 : String) (uu : List (Nat × String))
    (cnt serial : Nat) (tn : Option String) (td : String) (tl tid : Option String)
    (ev : Option (List (String × String))) (ia : List (String × String)) (r : TestResult)
    (h : (process_pair_core true c tt1 uu cnt serial tn td tl tid ev ia (some r)).err = none) :
    finish_statuses (process_pair_core true c tt1 uu cnt serial tn td tl tid ev ia (some r)).calls =
      [some (JVal.s (if r.log.any (fun p => (c.readLog p).isSome)
        then tmt_to_rp_result_status r.result else "SKIPPED"))] := by
  cases hdef : (get_defect_type_locator c.settings (some c.defect_type)).2 with
  | error e =>
    rw [core_err_eq, hdef] at h
    simp at h
  | ok loc =>
    obtain ⟨p, pl, hcalls⟩ := core_calls_ok c tt1 uu cnt serial tn td tl tid ev ia r loc hdef
    rw [hcalls]
    rw [finish_statuses_cons_other _ _ (fun u pl' h' => ApiCall.noConfusion h')]
    rw [finish_statuses_append, finish_statuses_logs, finish_statuses_append,
      finish_statuses_defect_trace]
    simp only [List.nil_append]
    rw [show finish_statuses [ApiCall.putItemFinish (c.itemCreateId cnt)
        [("launchUuid", JVal.s c.launch_uuid),
         ("endTime", JVal.s (pyOrStr r.end_time tt1)),
         ("status", JVal.s (upload_logs_go c (c.itemCreateId cnt)
           (pyOrStr r.end_time tt1) (r.log.headD "")
           r.result r.failures "SKIPPED" r.log.enum).1),
         ("issue", JVal.obj [("issueType", JVal.s loc)])]] =
      [some (JVal.s (upload_logs_go c (c.itemCreateId cnt)
           (pyOrStr r.end_time tt1) (r.log.headD "")
           r.result r.failures "SKIPPED" r.log.enum).1)] from rfl]
    rw [upload_logs_status]
    rw [show r.log.enum = r.log.enumFrom 0 from rfl,
      enumFrom_any_snd (fun p' => (c.readLog p').isSome) r.log 0]

theorem core_idle_props (c : PairCtx) (tt1 : String) (uu : List (Nat × String))
    (cnt serial : Nat) (tn : Option String) (td : String) (tl tid : Option String)
    (ev : Option (List (String × String))) (ia : List (String × String))
    (h : (process_pair_core true c tt1 uu cnt serial tn td tl tid ev ia none).err = none) :
    finish_statuses (process_pair_core true c tt1 uu cnt serial tn td tl tid ev ia none).calls =
      [some (JVal.s "SKIPPED")] ∧
    log_entry_payloads (process_pair_core true c tt1 uu cnt serial tn td tl tid ev ia none).calls = [] ∧
    ∃ u pl, ApiCall.putItemFinish u pl ∈
      (process_pair_core true c tt1 uu cnt serial tn td tl tid ev ia none).calls := by
  cases hdef : (get_defect_type_locator c.settings (some c.defect_type)).2 with
  | error e =>
    rw [core_err_eq, hdef] at h
    simp at h
  | ok loc =>
    obtain ⟨p, pl, hcalls⟩ := core_calls_idle c tt1 uu cnt serial tn td tl tid ev ia loc hdef
    rw [hcalls]
    refine ⟨?_, ?_, ?_⟩
    · rw [finish_statuses_cons_other _ _ (fun u pl' h' => ApiCall.noConfusion h')]
      rw [finish_statuses_append, finish_statuses_defect_trace]
      rfl
    · rw [log_entry_payloads_cons_other _ _ (fun pl' h' => ApiCall.noConfusion h')]
      rw [log_entry_payloads_append, log_entry_payloads_defect_trace]
      rfl
    · refine ⟨c.itemCreateId cnt,
        [("launchUuid", JVal.s c.launch_uuid), ("endTime", JVal.s tt1),
         ("status", JVal.s "SKIPPED"), ("issue", JVal.obj [("issueType", JVal.s loc)])], ?_⟩
      simp

/-- Claim C2 (amended).  The outcome mapping is the fixed table
PASS→PASSED, FAIL→FAILED, WARN→FAILED, ERROR→FAILED, INFO→SKIPPED,
SKIP→SKIPPED.  A test with a Result is finished with the mapped status
provided at least one of the Result's logs is readable; a Result none of
whose logs can be read is finished with status SKIPPED (the source only
assigns `status` inside the per-log loop).  A test with no Result (idle)
is finished with status SKIPPED, uploads zero log entries, and its finish
call is still issued. -/
theorem c2_result_status_mapping :
    (tmt_to_rp_result_status ResultOutcome.pass = "PASSED" ∧
     tmt_to_rp_result_status ResultOutcome.fail = "FAILED" ∧
     tmt_to_rp_result_status ResultOutcome.warn = "FAILED" ∧
     tmt_to_rp_result_status ResultOutcome.error = "FAILED" ∧
     tmt_to_rp_result_status ResultOutcome.info = "SKIPPED" ∧
     tmt_to_rp_result_status ResultOutcome.skip = "SKIPPED") ∧
    (∀ (c : PairCtx) (tt : String) (uu : List (Nat × String)) (cnt : Nat)
       (r : TestResult) (ot : Option TestCase),
       (process_pair true c tt uu cnt (some r, ot)).err = none →
       finish_statuses (process_pair true c tt uu cnt (some r, ot)).calls =
         [some (JVal.s (if r.log.any (fun p => (c.readLog p).isSome)
           then tmt_to_rp_result_status r.result else "SKIPPED"))]) ∧
    (∀ (c : PairCtx) (tt : String) (uu : List (Nat × String)) (cnt : Nat) (t : TestCase),
       (process_pair true c tt uu cnt (none, some t)).err = none →
       finish_statuses (process_pair true c tt uu cnt (none, some t)).calls =
         [some (JVal.s "SKIPPED")] ∧
       log_entry_payloads (process_pair true c tt uu cnt (none, some t)).calls = [] ∧
       ∃ u pl, ApiCall.putItemFinish u pl ∈
         (process_pair true c tt uu cnt (none, some t)).calls) := by
  refine ⟨⟨rfl, rfl, rfl, rfl, rfl, rfl⟩, ?_, ?_⟩
  · intro c tt uu cnt r ot h
    cases ot with
    | none => exact core_finish_status c (pyOrStr r.start_time tt) uu cnt _ _ _ _ _ _ _ r h
    | some t => exact core_finish_status c (pyOrStr r.start_time tt) uu cnt _ _ _ _ _ _ _ r h
  · intro c tt uu cnt t h
    exact core_idle_props c tt uu cnt _ _ _ _ _ _ _ h

/-- Counterexample to claim C2 as stated: a test with a Result (outcome
PASS, but an empty log list) is finished with status SKIPPED, not the
mapped PASSED. -/
theorem c2_counterexample :
    finish_statuses (process_pair true cW "T0" [] 0 (some rNoLogW, none)).calls =
      [some (JVal.s "SKIPPED")] ∧
    tmt_to_rp_result_status rNoLogW.result = "PASSED" := ⟨rfl, rfl⟩

/-- Witness for C2 at a concrete passed result with one readable log. -/
theorem c2_witness :
    finish_statuses (process_pair true cW "T0" [] 0 (some rW, some tW)).calls =
      [some (JVal.s (if rW.log.any (fun p => (cW.readLog p).isSome)
        then tmt_to_rp_result_status rW.result else "SKIPPED"))] :=
  c2_result_status_mapping.2.1 cW "T0" [] 0 rW (some tW) (by rfl)

theorem log_entry_payloads_cons_log (pl : List (String × JVal)) (l : List ApiCall) :
    log_entry_payloads (ApiCall.postLogEntry pl :: l) = pl :: log_entry_payloads l := rfl

theorem core_calls_err (c : PairCtx) (tt1 : String) (uu : List (Nat × String))
    (cnt serial : Nat) (tn : Option String) (td : String) (tl tid : Option String)
    (ev : Option (List (String × String))) (ia : List (String × String))
    (r : TestResult) (e : String)
    (hdef : (get_defect_type_locator c.settings (some c.defect_type)).2 = Except.error e) :
    ∃ p pl, (process_pair_core true c tt1 uu cnt serial tn td tl tid ev ia (some r)).calls =
      ApiCall.postTestItem p pl ::
        ((upload_logs_go c (c.itemCreateId cnt) (pyOrStr r.end_time tt1) (r.log.headD "")
            r.result r.failures "SKIPPED" r.log.enum).2 ++
          (get_defect_type_locator c.settings (some c.defect_type)).1) := by
  refine ⟨"item" ++ (if pyTruthyO c.suite_uuid then "/" ++ c.suite_uuid.getD "" else ""),
    item_payload c tn
      (if (pyTruthyO c.upload_to_launch && c.launch_per_plan) || pyTruthyO c.upload_to_suite
       then append_description c.launch_description td else td) ia ev tl tid tt1, ?_⟩
  simp only [process_pair_core, hdef]
  simp [List.append_assoc]

theorem upload_logs_payloads (c : PairCtx) (iu tt hp : String) (outc : ResultOutcome)
    (ff : List Nat → List Nat) :
    ∀ (l : List (Nat × String)) (s0 : String),
      log_entry_payloads (upload_logs_go c iu tt hp outc ff s0 l).2 =
        (l.map (fun ip =>
          match c.readLog ip.2 with
          | none => []
          | some lg =>
            [("message", JVal.codes (filter_log lg ⟨c.log_size_limit, false⟩)),
             ("itemUuid", JVal.s iu), ("launchUuid", JVal.s c.launch_uuid),
             ("level", JVal.s (if ip.2 == hp then "INFO" else "TRACE")),
             ("time", JVal.s tt)] ::
            (if ip.1 == 0 && tmt_to_rp_result_status outc == "FAILED" then
              [[("message", JVal.codes (filter_log (ff lg) ⟨c.traceback_size_limit, true⟩)),
                ("itemUuid", JVal.s iu), ("launchUuid", JVal.s c.launch_uuid),
                ("level", JVal.s "ERROR"), ("time", JVal.s tt)]]
             else []))).flatten := by
  intro l
  induction l with
  | nil => intro s0; rfl
  | cons ip rest ih =>
    intro s0
    rw [List.map_cons, List.flatten_cons]
    unfold upload_logs_go
    cases hread : c.readLog ip.2 with
    | none =>
      simp only [hread, List.nil_append]
      exact ih s0
    | some lg =>
      simp only [hread]
      by_cases hcond : (ip.1 == 0 && (tmt_to_rp_result_status outc == "FAILED")) = true
      · rw [if_pos hcond, if_pos hcond]
        simp only [List.singleton_append]
        rw [log_entry_payloads_cons_log, log_entry_payloads_cons_log, ih]
        rfl
      · rw [if_neg hcond, if_neg hcond]
        simp only [List.nil_append]
        rw [log_entry_payloads_cons_log, ih]
        rfl

theorem core_log_payloads (c : PairCtx) (tt1 : String) (uu : List (Nat × String))
    (cnt serial : Nat) (tn : Option String) (td : String) (tl tid : Option String)
    (ev : Option (List (String × String))) (ia : List (String × String)) (r : TestResult) :
    log_entry_payloads
        (process_pair_core true c tt1 uu cnt serial tn td tl tid ev ia (some r)).calls =
      log_entry_payloads (upload_logs_go c (c.itemCreateId cnt) (pyOrStr r.end_time tt1)
        (r.log.headD "") r.result r.failures "SKIPPED" r.log.enum).2 := by
  cases hdef : (get_defect_type_locator c.settings (some c.defect_type)).2 with
  | error e =>
    obtain ⟨p, pl, hcalls⟩ := core_calls_err c tt1 uu cnt serial tn td tl tid ev ia r e hdef
    rw [hcalls]
    rw [log_entry_payloads_cons_other _ _ (fun pl' h' => ApiCall.noConfusion h')]
    rw [log_entry_payloads_append, log_entry_payloads_defect_trace, List.append_nil]
  | ok loc =>
    obtain ⟨p, pl, hcalls⟩ := core_calls_ok c tt1 uu cnt serial tn td tl tid ev ia r loc hdef
    rw [hcalls]
    rw [log_entry_payloads_cons_other _ _ (fun pl' h' => ApiCall.noConfusion h')]
    rw [log_entry_payloads_append, log_entry_payloads_append,
      log_entry_payloads_defect_trace]
    rw [show log_entry_payloads [ApiCall.putItemFinish (c.itemCreateId cnt)
        [("launchUuid", JVal.s c.launch_uuid),
         ("endTime", JVal.s (pyOrStr r.end_time tt1)),
         ("status", JVal.s (upload_logs_go c (c.itemCreateId cnt)
           (pyOrStr r.end_time tt1) (r.log.headD "")
           r.result r.failures "SKIPPED" r.log.enum).1),
         ("issue", JVal.obj [("issueType", JVal.s loc)])]] = [] from rfl]
    simp

theorem upload_logs_err_count (c : PairCtx) (iu tt hp : String) (outc : ResultOutcome)
    (ff : List Nat → List Nat) :
    ∀ (l : List (Nat × String)) (s0 : String),
      ((log_entry_payloads (upload_logs_go c iu tt hp outc ff s0 l).2).countP
          (fun pl => entry_level pl == some "ERROR")) =
        (l.map (fun ip => match c.readLog ip.2 with
          | none => 0
          | some _ => if ip.1 == 0 && tmt_to_rp_result_status outc == "FAILED"
            then 1 else 0)).sum := by
  intro l
  induction l with
  | nil => intro s0; rfl
  | cons ip rest ih =>
    intro s0
    rw [List.map_cons, List.sum_cons]
    unfold upload_logs_go
    cases hread : c.readLog ip.2 with
    | none =>
      simp only [hread, Nat.zero_add]
      exact ih s0
    | some lg =>
      simp only [hread]
      have hmain0 : ∀ b : Bool, (entry_level
          [("message", JVal.codes (filter_log lg ⟨c.log_size_limit, false⟩)),
           ("itemUuid", JVal.s iu), ("launchUuid", JVal.s c.launch_uuid),
           ("level", JVal.s (if b then "INFO" else "TRACE")),
           ("time", JVal.s tt)] == some "ERROR") = false := by
        intro b
        cases b <;> rfl
      have herr : (entry_level
          [("message", JVal.codes (filter_log (ff lg) ⟨c.traceback_size_limit, true⟩)),
           ("itemUuid", JVal.s iu), ("launchUuid", JVal.s c.launch_uuid),
           ("level", JVal.s "ERROR"), ("time", JVal.s tt)] == some "ERROR") = true := rfl
      by_cases hcond : (ip.1 == 0 && (tmt_to_rp_result_status outc == "FAILED")) = true
      · rw [if_pos hcond, if_pos hcond]
        simp only [List.singleton_append]
        rw [log_entry_payloads_cons_log, log_entry_payloads_cons_log]
        rw [List.countP_cons, List.countP_cons, ih]
        rw [hmain0 (ip.2 == hp), herr]
        simp
        omega
      · rw [if_neg hcond, if_neg hcond]
        simp only [List.nil_append]
        rw [log_entry_payloads_cons_log, List.countP_cons, ih]
        rw [hmain0 (ip.2 == hp)]
        simp

theorem err_count_tail (c : PairCtx) (outc : ResultOutcome) :
    ∀ (l : List String) (n : Nat),
      ((l.enumFrom (n + 1)).map (fun ip => match c.readLog ip.2 with
        | none => 0
        | some _ => if ip.1 == 0 && tmt_to_rp_result_status outc == "FAILED"
          then 1 else 0)).sum = 0 := by
  intro l
  induction l with
  | nil => intro n; rfl
  | cons p rest ih =>
    intro n
    simp only [List.enumFrom, List.map_cons, List.sum_cons]
    have h1 : ((n + 1 : Nat) == 0) = false := by simp
    rw [show (match c.readLog p with
        | none => 0
        | some _ => if (n + 1 : Nat) == 0 && tmt_to_rp_result_status outc == "FAILED"
          then 1 else 0) = 0 from by
      cases c.readLog p with
      | none => rfl
      | some lg => rw [h1]; rfl]
    rw [Nat.zero_add]
    exact ih (n + 1)

theorem core_c8 (c : PairCtx) (tt1 : String) (uu : List (Nat × String))
    (cnt serial : Nat) (tn : Option String) (td : String) (tl tid : Option String)
    (ev : Option (List (String × String))) (ia : List (String × String)) (r : TestResult) :
    log_entry_payloads
        (process_pair_core true c tt1 uu cnt serial tn td tl tid ev ia (some r)).calls =
      amended_log_entries c (c.itemCreateId cnt) (pyOrStr r.end_time tt1) r ∧
    (log_entry_payloads
        (process_pair_core true c tt1 uu cnt serial tn td tl tid ev ia (some r)).calls).countP
        (fun pl => entry_level pl == some "ERROR") =
      (match r.log.head? with
       | none => 0
       | some p => if (c.readLog p).isSome && (tmt_to_rp_result_status r.result == "FAILED")
         then 1 else 0) := by
  constructor
  · rw [core_log_payloads, upload_logs_payloads]
    rfl
  · rw [core_log_payloads, upload_logs_err_count]
    cases hl : r.log with
    | nil => rfl
    | cons p rest =>
      rw [show (p :: rest).enum = (0, p) :: rest.enumFrom 1 from rfl]
      rw [List.map_cons, List.sum_cons]
      have htail := err_count_tail c r.result rest 0
      rw [Nat.zero_add] at htail
      rw [htail, Nat.add_zero]
      have hhead : (match (p :: rest).head? with
          | none => 0
          | some q => if (c.readLog q).isSome && (tmt_to_rp_result_status r.result == "FAILED")
            then 1 else 0) =
          if (c.readLog p).isSome && (tmt_to_rp_result_status r.result == "FAILED")
          then 1 else 0 := rfl
      rw [hhead]
      cases hr : c.readLog p with
      | none => rfl
      | some lg => rfl

/-- Claim C8 (amended).  For a test with a Result, the `POST log/entry`
payloads of its iteration are exactly `amended_log_entries`: one entry per
readable log, sanitized under the general log limit, whose level is INFO
when the log's path equals the *first* log's path (so a later log sharing
the first log's path is also INFO, not TRACE) and TRACE otherwise; and
directly after the entry of the first log — only when that first log is
readable — an extra ERROR entry with the extracted failure text sanitized
under the traceback limit, exactly when the outcome maps to FAILED.  The
number of ERROR entries is 1 exactly when the first log is readable and
the outcome maps to FAILED, else 0. -/
theorem c8_log_upload_sequence (c : PairCtx) (tt : String) (uu : List (Nat × String))
    (cnt : Nat) (r : TestResult) (ot : Option TestCase) :
    log_entry_payloads (process_pair true c tt uu cnt (some r, ot)).calls =
      amended_log_entries c (c.itemCreateId cnt)
        (pyOrStr r.end_time (pyOrStr r.start_time tt)) r ∧
    (log_entry_payloads (process_pair true c tt uu cnt (some r, ot)).calls).countP
        (fun pl => entry_level pl == some "ERROR") =
      (match r.log.head? with
       | none => 0
       | some p => if (c.readLog p).isSome && (tmt_to_rp_result_status r.result == "FAILED")
         then 1 else 0) := by
  cases ot with
  | none => exact core_c8 c (pyOrStr r.start_time tt) uu cnt _ _ _ _ _ _ _ r
  | some t => exact core_c8 c (pyOrStr r.start_time tt) uu cnt _ _ _ _ _ _ _ r

/-- Counterexample to claim C8 as stated: a Result whose second log has the
same path as its first log gets *two* INFO-level entries; the claim says
every log after the first is uploaded at level TRACE. -/
theorem c8_counterexample :
    (log_entry_payloads (process_pair true cW "T0" [] 0 (some rDupW, none)).calls).map
        entry_level = [some "INFO", some "INFO"] ∧
    rDupW.log.length = 2 := ⟨rfl, rfl⟩

/-! ## Call-kind lemmas for the execute-level claims -/

theorem mem_defect_trace (st : Option DefectTypes) (dt : Option String) (x : ApiCall)
    (hx : x ∈ (get_defect_type_locator st dt).1) : x = ApiCall.getSettings := by
  rcases defect_trace_cases st dt with h | h
  · rw [h] at hx
    simp at hx
  · rw [h] at hx
    simpa using hx

theorem resolve_calls_kind (orc : Oracle) (cl : Bool) (ln ld : String)
    (la : List (String × String)) (lt : String) (lr : Bool)
    (sid lid lu su : Option String) :
    ∀ x ∈ (resolve_launch_phase orc cl ln ld la lt lr sid lid lu su).calls,
      isLaunchFinishCall x = false ∧ is_test_item_create x = false := by
  intro x hx
  unfold resolve_launch_phase at hx
  dsimp only at hx
  repeat' split at hx
  all_goals dsimp only at hx
  all_goals simp only [List.mem_append, List.mem_cons, List.not_mem_nil, or_false,
    false_or, List.nil_append, List.cons_append] at hx
  all_goals first
    | ((rcases hx with rfl | rfl | rfl | rfl) <;> exact ⟨rfl, rfl⟩)
    | ((rcases hx with rfl | rfl | rfl) <;> exact ⟨rfl, rfl⟩)
    | ((rcases hx with rfl | rfl) <;> exact ⟨rfl, rfl⟩)
    | (subst hx; exact ⟨rfl, rfl⟩)

theorem core_calls_idle_err (c : PairCtx) (tt1 : String) (uu : List (Nat × String))
    (cnt serial : Nat) (tn : Option String) (td : String) (tl tid : Option String)
    (ev : Option (List (String × String))) (ia : List (String × String)) (e : String)
    (hdef : (get_defect_type_locator c.settings (some c.defect_type)).2 = Except.error e) :
    ∃ p pl, (process_pair_core true c tt1 uu cnt serial tn td tl tid ev ia none).calls =
      ApiCall.postTestItem p pl :: (get_defect_type_locator c.settings (some c.defect_type)).1 := by
  refine ⟨"item" ++ (if pyTruthyO c.suite_uuid then "/" ++ c.suite_uuid.getD "" else ""),
    item_payload c tn
      (if (pyTruthyO c.upload_to_launch && c.launch_per_plan) || pyTruthyO c.upload_to_suite
       then append_description c.launch_description td else td) ia ev tl tid tt1, ?_⟩
  simp only [process_pair_core, hdef]
  simp [List.append_assoc]

theorem core_calls_reuse_missing (c : PairCtx) (tt1 : String) (uu : List (Nat × String))
    (cnt serial : Nat) (tn : Option String) (td : String) (tl tid : Option String)
    (ev : Option (List (String × String))) (ia : List (String × String))
    (ro : Option TestResult) (hlk : lookupNat serial uu = none) :
    (process_pair_core false c tt1 uu cnt serial tn td tl tid ev ia ro).calls = [] := by
  simp only [process_pair_core, hlk, Bool.false_eq_true, if_false]

theorem core_calls_reuse_err (c : PairCtx) (tt1 : String) (uu : List (Nat × String))
    (cnt serial : Nat) (tn : Option String) (td : String) (tl tid : Option String)
    (ev : Option (List (String × String))) (ia : List (String × String))
    (r : TestResult) (u e : String) (hlk : lookupNat serial uu = some u)
    (hdef : (get_defect_type_locator c.settings (some c.defect_type)).2 = Except.error e) :
    (process_pair_core false c tt1 uu cnt serial tn td tl tid ev ia (some r)).calls =
      (upload_logs_go c u (pyOrStr r.end_time tt1) (r.log.headD "")
        r.result r.failures "SKIPPED" r.log.enum).2 ++
      (get_defect_type_locator c.settings (some c.defect_type)).1 := by
  simp only [process_pair_core, hlk, hdef, Bool.false_eq_true, if_false]
  simp

theorem core_calls_reuse_ok (c : PairCtx) (tt1 : String) (uu : List (Nat × String))
    (cnt serial : Nat) (tn : Option String) (td : String) (tl tid : Option String)
    (ev : Option (List (String × String))) (ia : List (String × String))
    (r : TestResult) (u loc : String) (hlk : lookupNat serial uu = some u)
    (hdef : (get_defect_type_locator c.settings (some c.defect_type)).2 = Except.ok loc) :
    (process_pair_core false c tt1 uu cnt serial tn td tl tid ev ia (some r)).calls =
      (upload_logs_go c u (pyOrStr r.end_time tt1) (r.log.headD "")
        r.result r.failures "SKIPPED" r.log.enum).2 ++
      ((get_defect_type_locator c.settings (some c.defect_type)).1 ++
        [ApiCall.putItemFinish u
          [("launchUuid", JVal.s c.launch_uuid),
           ("endTime", JVal.s (pyOrStr r.end_time tt1)),
           ("status", JVal.s (upload_logs_go c u (pyOrStr r.end_time tt1) (r.log.headD "")
             r.result r.failures "SKIPPED" r.log.enum).1),
           ("issue", JVal.obj [("issueType", JVal.s loc)])]]) := by
  simp only [process_pair_core, hlk, hdef, Bool.false_eq_true, if_false]
  simp [List.append_assoc]

theorem core_calls_reuse_idle_err (c : PairCtx) (tt1 : String) (uu : List (Nat × String))
    (cnt serial : Nat) (tn : Option String) (td : String) (tl tid : Option String)
    (ev : Option (List (String × String))) (ia : List (String × String))
    (u e : String) (hlk : lookupNat serial uu = some u)
    (hdef : (get_defect_type_locator c.settings (some c.defect_type)).2 = Except.error e) :
    (process_pair_core false c tt1 uu cnt serial tn td tl tid ev ia none).calls =
      (get_defect_type_locator c.settings (some c.defect_type)).1 := by
  simp only [process_pair_core, hlk, hdef, Bool.false_eq_true, if_false]
  simp

theorem core_calls_reuse_idle_ok (c : PairCtx) (tt1 : String) (uu : List (Nat × String))
    (cnt serial : Nat) (tn : Option String) (td : String) (tl tid : Option String)
    (ev : Option (List (String × String))) (ia : List (String × String))
    (u loc : String) (hlk : lookupNat serial uu = some u)
    (hdef : (get_defect_type_locator c.settings (some c.defect_type)).2 = Except.ok loc) :
    (process_pair_core false c tt1 uu cnt serial tn td tl tid ev ia none).calls =
      (get_defect_type_locator c.settings (some c.defect_type)).1 ++
        [ApiCall.putItemFinish u
          [("launchUuid", JVal.s c.launch_uuid), ("endTime", JVal.s tt1),
           ("status", JVal.s "SKIPPED"),
           ("issue", JVal.obj [("issueType", JVal.s loc)])]] := by
  simp only [process_pair_core, hlk, hdef, Bool.false_eq_true, if_false]
  simp

theorem core_calls_kind (ct : Bool) (c : PairCtx) (tt1 : String)
    (uu : List (Nat × String)) (cnt serial : Nat) (tn : Option String) (td : String)
    (tl tid : Option String) (ev : Option (List (String × String)))
    (ia : List (String × String)) (ro : Option TestResult) :
    ∀ x ∈ (process_pair_core ct c tt1 uu cnt serial tn td tl tid ev ia ro).calls,
      loop_call_ok ct x = true := by
  intro x hx
  rcases ro with _ | r <;> cases ct
  case none.true =>
    cases hdef : (get_defect_type_locator c.settings (some c.defect_type)).2 with
    | error e =>
      obtain ⟨p, pl, hc⟩ := core_calls_idle_err c tt1 uu cnt serial tn td tl tid ev ia e hdef
      rw [hc] at hx
      rcases List.mem_cons.mp hx with rfl | hx
      · rfl
      · obtain rfl := mem_defect_trace _ _ x hx
        rfl
    | ok loc =>
      obtain ⟨p, pl, hc⟩ := core_calls_idle c tt1 uu cnt serial tn td tl tid ev ia loc hdef
      rw [hc] at hx
      rcases List.mem_cons.mp hx with rfl | hx
      · rfl
      rcases List.mem_append.mp hx with hx | hx
      · obtain rfl := mem_defect_trace _ _ x hx
        rfl
      · rcases List.mem_singleton.mp hx with rfl
        rfl
  case none.false =>
    cases hlk : lookupNat serial uu with
    | none =>
      rw [core_calls_reuse_missing c tt1 uu cnt serial tn td tl tid ev ia none hlk] at hx
      simp at hx
    | some u =>
      cases hdef : (get_defect_type_locator c.settings (some c.defect_type)).2 with
      | error e =>
        rw [core_calls_reuse_idle_err c tt1 uu cnt serial tn td tl tid ev ia u e hlk hdef] at hx
        obtain rfl := mem_defect_trace _ _ x hx
        rfl
      | ok loc =>
        rw [core_calls_reuse_idle_ok c tt1 uu cnt serial tn td tl tid ev ia u loc hlk hdef] at hx
        rcases List.mem_append.mp hx with hx | hx
        · obtain rfl := mem_defect_trace _ _ x hx
          rfl
        · rcases List.mem_singleton.mp hx with rfl
          rfl
  case some.true =>
    cases hdef : (get_defect_type_locator c.settings (some c.defect_type)).2 with
    | error e =>
      obtain ⟨p, pl, hc⟩ := core_calls_err c tt1 uu cnt serial tn td tl tid ev ia r e hdef
      rw [hc] at hx
      rcases List.mem_cons.mp hx with rfl | hx
      · rfl
      rcases List.mem_append.mp hx with hx | hx
      · obtain ⟨pl2, rfl⟩ := upload_logs_all_log_entries _ _ _ _ _ _ _ _ x hx
        rfl
      · obtain rfl := mem_defect_trace _ _ x hx
        rfl
    | ok loc =>
      obtain ⟨p, pl, hc⟩ := core_calls_ok c tt1 uu cnt serial tn td tl tid ev ia r loc hdef
      rw [hc] at hx
      rcases List.mem_cons.mp hx with rfl | hx
      · rfl
      rcases List.mem_append.mp hx with hx | hx
      · obtain ⟨pl2, rfl⟩ := upload_logs_all_log_entries _ _ _ _ _ _ _ _ x hx
        rfl
      rcases List.mem_append.mp hx with hx | hx
      · obtain rfl := mem_defect_trace _ _ x hx
        rfl
      · rcases List.mem_singleton.mp hx with rfl
        rfl
  case some.false =>
    cases hlk : lookupNat serial uu with
    | none =>
      rw [core_calls_reuse_missing c tt1 uu cnt serial tn td tl tid ev ia (some r) hlk] at hx
      simp at hx
    | some u =>
      cases hdef : (get_defect_type_locator c.settings (some c.defect_type)).2 with
      | error e =>
        rw [core_calls_reuse_err c tt1 uu cnt serial tn td tl tid ev ia r u e hlk hdef] at hx
        rcases List.mem_append.mp hx with hx | hx
        · obtain ⟨pl2, rfl⟩ := upload_logs_all_log_entries _ _ _ _ _ _ _ _ x hx
          rfl
        · obtain rfl := mem_defect_trace _ _ x hx
          rfl
      | ok loc =>
        rw [core_calls_reuse_ok c tt1 uu cnt serial tn td tl tid ev ia r u loc hlk hdef] at hx
        rcases List.mem_append.mp hx with hx | hx
        · obtain ⟨pl2, rfl⟩ := upload_logs_all_log_entries _ _ _ _ _ _ _ _ x hx
          rfl
        rcases List.mem_append.mp hx with hx | hx
        · obtain rfl := mem_defect_trace _ _ x hx
          rfl
        · rcases List.mem_singleton.mp hx with rfl
          rfl

theorem pp_calls_kind (ct : Bool) (c : PairCtx) (tt : String)
    (uu : List (Nat × String)) (cnt : Nat)
    (pr : Option TestResult × Option TestCase) :
    ∀ x ∈ (process_pair ct c tt uu cnt pr).calls, loop_call_ok ct x = true := by
  intro x hx
  match pr with
  | (none, none) => simp [process_pair] at hx
  | (some r, some t) => exact core_calls_kind ct c _ uu cnt _ _ _ _ _ _ _ _ x hx
  | (some r, none) => exact core_calls_kind ct c _ uu cnt _ _ _ _ _ _ _ _ x hx
  | (none, some t) => exact core_calls_kind ct c _ uu cnt _ _ _ _ _ _ _ _ x hx

theorem run_pairs_calls_kind (ct : Bool) (c : PairCtx) :
    ∀ (l : List (Option TestResult × Option TestCase)) (acc : PairOut),
      (∀ x ∈ acc.calls, loop_call_ok ct x = true) →
      ∀ x ∈ (run_pairs ct c acc l).calls, loop_call_ok ct x = true := by
  intro l
  induction l with
  | nil => intro acc hacc x hx; exact hacc x hx
  | cons p ps ih =>
    intro acc hacc x hx
    unfold run_pairs at hx
    cases herr : acc.err with
    | some e =>
      rw [herr] at hx
      exact hacc x hx
    | none =>
      rw [herr] at hx
      refine ih _ ?_ x hx
      intro y hy
      simp only [List.mem_append] at hy
      rcases hy with hy | hy
      · exact hacc y hy
      · exact pp_calls_kind ct c _ _ _ p y hy

/-! ## State lemmas for the test-uuid map -/

theorem nodup_append_singleton {α : Type} {l : List α} {a : α}
    (h : l.Nodup) (h2 : a ∉ l) : (l ++ [a]).Nodup := by
  rw [List.nodup_append]
  refine ⟨h, List.nodup_singleton a, ?_⟩
  intro x hx hxa
  exact h2 ((List.mem_singleton.mp hxa) ▸ hx)

theorem dict_set_append {m : List (Nat × String)} {k : Nat} {v : String}
    (h : k ∉ m.map Prod.fst) : dict_set m k v = m ++ [(k, v)] := by
  unfold dict_set
  rw [if_neg]
  intro hc
  exact h (by simpa using hc)

theorem core_state_create (c : PairCtx) (tt1 : String) (uu : List (Nat × String))
    (cnt serial : Nat) (tn : Option String) (td : String) (tl tid : Option String)
    (ev : Option (List (String × String))) (ia : List (String × String))
    (ro : Option TestResult) :
    (process_pair_core true c tt1 uu cnt serial tn td tl tid ev ia ro).uuids =
      dict_set uu serial (c.itemCreateId cnt) ∧
    (process_pair_core true c tt1 uu cnt serial tn td tl tid ev ia ro).cnt = cnt + 1 := by
  rcases ro with _ | r <;>
    cases hdef : (get_defect_type_locator c.settings (some c.defect_type)).2 <;>
    exact ⟨by simp only [process_pair_core, hdef, if_true], by simp only [process_pair_core, hdef, if_true]⟩

theorem core_state_reuse (c : PairCtx) (tt1 : String) (uu : List (Nat × String))
    (cnt serial : Nat) (tn : Option String) (td : String) (tl tid : Option String)
    (ev : Option (List (String × String))) (ia : List (String × String))
    (ro : Option TestResult) :
    (process_pair_core false c tt1 uu cnt serial tn td tl tid ev ia ro).uuids = uu ∧
    (process_pair_core false c tt1 uu cnt serial tn td tl tid ev ia ro).cnt = cnt := by
  rcases ro with _ | r <;> cases hlk : lookupNat serial uu
  case none.none =>
    exact ⟨by simp only [process_pair_core, hlk, Bool.false_eq_true, if_false],
      by simp only [process_pair_core, hlk, Bool.false_eq_true, if_false]⟩
  case none.some u =>
    cases hdef : (get_defect_type_locator c.settings (some c.defect_type)).2 <;>
      exact ⟨by simp only [process_pair_core, hlk, hdef, Bool.false_eq_true, if_false],
        by simp only [process_pair_core, hlk, hdef, Bool.false_eq_true, if_false]⟩
  case some.none =>
    exact ⟨by simp only [process_pair_core, hlk, Bool.false_eq_true, if_false],
      by simp only [process_pair_core, hlk, Bool.false_eq_true, if_false]⟩
  case some.some u =>
    cases hdef : (get_defect_type_locator c.settings (some c.defect_type)).2 <;>
      exact ⟨by simp only [process_pair_core, hlk, hdef, Bool.false_eq_true, if_false],
        by simp only [process_pair_core, hlk, hdef, Bool.false_eq_true, if_false]⟩

theorem pp_state (ct : Bool) (c : PairCtx) (tt : String) (uu : List (Nat × String))
    (cnt : Nat) (pr : Option TestResult × Option TestCase) :
    (process_pair ct c tt uu cnt pr).uuids =
      (match pair_serial pr with
       | none => uu
       | some s => if ct then dict_set uu s (c.itemCreateId cnt) else uu) ∧
    (process_pair ct c tt uu cnt pr).cnt =
      (if ct && (pair_serial pr).isSome then cnt + 1 else cnt) := by
  match pr with
  | (none, none) =>
    cases ct <;> exact ⟨rfl, rfl⟩
  | (some r, some t) =>
    cases ct
    · exact ⟨(core_state_reuse c _ uu cnt _ _ _ _ _ _ _ _).1,
        (core_state_reuse c _ uu cnt _ _ _ _ _ _ _ _).2⟩
    · exact ⟨(core_state_create c _ uu cnt _ _ _ _ _ _ _ _).1,
        (core_state_create c _ uu cnt _ _ _ _ _ _ _ _).2⟩
  | (some r, none) =>
    cases ct
    · exact ⟨(core_state_reuse c _ uu cnt _ _ _ _ _ _ _ _).1,
        (core_state_reuse c _ uu cnt _ _ _ _ _ _ _ _).2⟩
    · exact ⟨(core_state_create c _ uu cnt _ _ _ _ _ _ _ _).1,
        (core_state_create c _ uu cnt _ _ _ _ _ _ _ _).2⟩
  | (none, some t) =>
    cases ct
    · exact ⟨(core_state_reuse c _ uu cnt _ _ _ _ _ _ _ _).1,
        (core_state_reuse c _ uu cnt _ _ _ _ _ _ _ _).2⟩
    · exact ⟨(core_state_create c _ uu cnt _ _ _ _ _ _ _ _).1,
        (core_state_create c _ uu cnt _ _ _ _ _ _ _ _).2⟩

theorem run_pairs_reuse_uuids (c : PairCtx) :
    ∀ (l : List (Option TestResult × Option TestCase)) (acc : PairOut),
      (run_pairs false c acc l).uuids = acc.uuids := by
  intro l
  induction l with
  | nil => intro acc; rfl
  | cons p ps ih =>
    intro acc
    unfold run_pairs
    cases herr : acc.err with
    | some e => rfl
    | none =>
      rw [ih]
      exact (pp_state false c acc.test_time acc.uuids acc.cnt p).1.trans
        (by cases hps : pair_serial p <;> rfl)

theorem run_pairs_uuid_invariant (c : PairCtx) :
    ∀ (l : List (Option TestResult × Option TestCase)) (acc : PairOut),
      (acc.uuids.map Prod.fst).Nodup →
      (acc.uuids.map Prod.snd).Nodup →
      (l.filterMap pair_serial).Nodup →
      (∀ kv ∈ acc.uuids, kv.1 ∉ l.filterMap pair_serial) →
      (∀ kv ∈ acc.uuids, ∀ j, acc.cnt ≤ j → j < acc.cnt + l.length →
        kv.2 ≠ c.itemCreateId j) →
      (∀ i j, acc.cnt ≤ i → i < acc.cnt + l.length → acc.cnt ≤ j →
        j < acc.cnt + l.length → c.itemCreateId i = c.itemCreateId j → i = j) →
      ((run_pairs true c acc l).uuids.map Prod.fst).Nodup ∧
      ((run_pairs true c acc l).uuids.map Prod.snd).Nodup ∧
      (∀ kv ∈ (run_pairs true c acc l).uuids,
        kv ∈ acc.uuids ∨ kv.1 ∈ l.filterMap pair_serial) := by
  intro l
  induction l with
  | nil =>
    intro acc h1 h2 _ _ _ _
    exact ⟨h1, h2, fun kv hkv => Or.inl hkv⟩
  | cons p ps ih =>
    intro acc h1 h2 hser hdisj hfresh hinj
    have hlen : (p :: ps).length = ps.length + 1 := rfl
    unfold run_pairs
    cases herr : acc.err with
    | some e =>
      exact ⟨h1, h2, fun kv hkv => Or.inl hkv⟩
    | none =>
      have hpu := (pp_state true c acc.test_time acc.uuids acc.cnt p).1
      have hpc := (pp_state true c acc.test_time acc.uuids acc.cnt p).2
      cases hps : pair_serial p with
      | none =>
        rw [hps] at hpu hpc
        simp at hpc
        have hfm : (p :: ps).filterMap pair_serial = ps.filterMap pair_serial := by
          simp [List.filterMap_cons, hps]
        rw [hfm] at hser hdisj
        have hmain := ih ⟨acc.calls ++ (process_pair true c acc.test_time acc.uuids acc.cnt p).calls,
            (process_pair true c acc.test_time acc.uuids acc.cnt p).test_time,
            (process_pair true c acc.test_time acc.uuids acc.cnt p).uuids,
            (process_pair true c acc.test_time acc.uuids acc.cnt p).cnt,
            (process_pair true c acc.test_time acc.uuids acc.cnt p).err⟩
          (by rw [hpu]; exact h1) (by rw [hpu]; exact h2) hser
          (by rw [hpu]; exact hdisj)
          (by
            dsimp only
            rw [hpu, hpc]
            intro kv hkv j hj1 hj2
            refine hfresh kv hkv j (by omega) (by omega))
          (by
            dsimp only
            rw [hpc]
            intro i j hi1 hi2 hj1 hj2 heq
            exact hinj i j (by omega) (by omega) (by omega) (by omega) heq)
        refine ⟨hmain.1, hmain.2.1, ?_⟩
        intro kv hkv
        rw [hfm]
        rcases hmain.2.2 kv hkv with hm | hm
        · rw [hpu] at hm
          exact Or.inl hm
        · exact Or.inr hm
      | some s =>
        rw [hps] at hpu hpc
        simp only [if_true, Option.isSome_some, Bool.and_true] at hpu hpc
        have hfm : (p :: ps).filterMap pair_serial = s :: ps.filterMap pair_serial := by
          simp [List.filterMap_cons, hps]
        rw [hfm] at hser hdisj
        have hs1 : s ∉ ps.filterMap pair_serial := (List.nodup_cons.mp hser).1
        have hser2 : (ps.filterMap pair_serial).Nodup := (List.nodup_cons.mp hser).2
        have hsk : s ∉ acc.uuids.map Prod.fst := by
          intro hmem
          obtain ⟨kv, hkv, hkv2⟩ := List.mem_map.mp hmem
          exact hdisj kv hkv (by rw [hkv2]; exact List.mem_cons_self s _)
        have hset : dict_set acc.uuids s (c.itemCreateId acc.cnt) =
            acc.uuids ++ [(s, c.itemCreateId acc.cnt)] := dict_set_append hsk
        rw [hset] at hpu
        have hvfresh : c.itemCreateId acc.cnt ∉ acc.uuids.map Prod.snd := by
          intro hmem
          obtain ⟨kv, hkv, hkv2⟩ := List.mem_map.mp hmem
          exact hfresh kv hkv acc.cnt (Nat.le_refl _) (by omega) hkv2
        have hmain := ih ⟨acc.calls ++ (process_pair true c acc.test_time acc.uuids acc.cnt p).calls,
            (process_pair true c acc.test_time acc.uuids acc.cnt p).test_time,
            (process_pair true c acc.test_time acc.uuids acc.cnt p).uuids,
            (process_pair true c acc.test_time acc.uuids acc.cnt p).cnt,
            (process_pair true c acc.test_time acc.uuids acc.cnt p).err⟩
          (by
            rw [hpu, List.map_append]
            exact nodup_append_singleton h1 hsk)
          (by
            rw [hpu, List.map_append]
            exact nodup_append_singleton h2 hvfresh)
          hser2
          (by
            rw [hpu]
            intro kv hkv
            rcases List.mem_append.mp hkv with hkv | hkv
            · intro hc
              exact hdisj kv hkv (List.mem_cons_of_mem s hc)
            · rcases List.mem_singleton.mp hkv with rfl
              exact hs1)
          (by
            dsimp only
            rw [hpu, hpc]
            intro kv hkv j hj1 hj2
            rcases List.mem_append.mp hkv with hkv | hkv
            · exact hfresh kv hkv j (by omega) (by omega)
            · rcases List.mem_singleton.mp hkv with rfl
              intro heq
              have hje : acc.cnt = j :=
                hinj acc.cnt j (Nat.le_refl _) (by omega) (by omega) (by omega) heq
              omega)
          (by
            dsimp only
            rw [hpc]
            intro i j hi1 hi2 hj1 hj2 heq
            exact hinj i j (by omega) (by omega) (by omega) (by omega) heq)
        refine ⟨hmain.1, hmain.2.1, ?_⟩
        intro kv hkv
        rw [hfm]
        rcases hmain.2.2 kv hkv with hm | hm
        · rw [hpu] at hm
          rcases List.mem_append.mp hm with hm | hm
          · exact Or.inl hm
          · rcases List.mem_singleton.mp hm with rfl
            exact Or.inr (List.mem_cons_self s _)
        · exact Or.inr (List.mem_cons_of_mem s hm)

theorem any_false_of_forall {l : List ApiCall} {p : ApiCall → Bool}
    (h : ∀ x ∈ l, p x = false) : l.any p = false := by
  rw [List.any_eq_false]
  intro x hx
  rw [h x hx]
  exact Bool.false_ne_true

theorem loop_call_ok_false_no_create {x : ApiCall} (h : loop_call_ok false x = true) :
    is_test_item_create x = false := by
  cases x <;> simp_all [loop_call_ok, is_test_item_create]

theorem loop_call_ok_no_finish {ct : Bool} {x : ApiCall} (h : loop_call_ok ct x = true) :
    isLaunchFinishCall x = false := by
  cases x <;> simp_all [loop_call_ok, isLaunchFinishCall]

theorem ewp_uuids_reuse (o : Options) (env : Env) (orc : Oracle)
    (lt : String) (spp lpp addl cs cl : Bool) (ep dt : String)
    (ats : List (String × String)) (sd : String) (ph : LaunchPhase) :
    (execute_with_phase o env orc lt spp lpp addl false cs cl ep dt ats sd ph).data.test_uuids
      = o.test_uuids := by
  unfold execute_with_phase
  split
  · rfl
  · split
    · rfl
    · dsimp only
      split
      · dsimp only
        exact run_pairs_reuse_uuids _ _ _
      · dsimp only
        split <;> exact run_pairs_reuse_uuids _ _ _

theorem ewp_no_create (o : Options) (env : Env) (orc : Oracle)
    (lt : String) (spp lpp addl cs cl : Bool) (ep dt : String)
    (ats : List (String × String)) (sd : String) (ph : LaunchPhase)
    (hph : ∀ x ∈ ph.calls, isLaunchFinishCall x = false ∧ is_test_item_create x = false) :
    (execute_with_phase o env orc lt spp lpp addl false cs cl ep dt ats sd ph).calls.any
      is_test_item_create = false := by
  have hphc : ph.calls.any is_test_item_create = false :=
    any_false_of_forall (fun x hx => (hph x hx).2)
  have hloop : ∀ (c : PairCtx) (acc : PairOut)
      (h0 : ∀ x ∈ acc.calls, loop_call_ok false x = true),
      (run_pairs false c acc env.pairs).calls.any is_test_item_create = false := by
    intro c acc h0
    exact any_false_of_forall (fun x hx =>
      loop_call_ok_false_no_create (run_pairs_calls_kind false c env.pairs acc h0 x hx))
  unfold execute_with_phase
  split
  · exact hphc
  · split
    · exact hphc
    · dsimp only
      split
      · dsimp only
        rw [List.any_append, List.any_append, hphc,
          hloop _ _ (fun x hx => absurd hx (List.not_mem_nil x))]
        cases cs <;> simp [is_test_item_create]
      · dsimp only
        rw [List.any_append, List.any_append, List.any_append, List.any_append, hphc,
          hloop _ _ (fun x hx => absurd hx (List.not_mem_nil x))]
        cases cs <;>
          cases hfc : (lpp || (spp && env.isLastPlan)) && !addl <;>
            simp [hfc, is_test_item_create]

theorem ewp_uuid_inv (o : Options) (env : Env) (orc : Oracle)
    (lt : String) (spp lpp addl cs cl : Bool) (ep dt : String)
    (ats : List (String × String)) (sd : String) (ph : LaunchPhase)
    (hinit : o.test_uuids = [])
    (hser : (env.pairs.filterMap pair_serial).Nodup)
    (hinj : ∀ i j, i < env.pairs.length → j < env.pairs.length →
      orc.itemCreateId i = orc.itemCreateId j → i = j) :
    (((execute_with_phase o env orc lt spp lpp addl true cs cl ep dt ats sd
        ph).data.test_uuids.map Prod.fst).Nodup) ∧
    (((execute_with_phase o env orc lt spp lpp addl true cs cl ep dt ats sd
        ph).data.test_uuids.map Prod.snd).Nodup) ∧
    (∀ kv ∈ (execute_with_phase o env orc lt spp lpp addl true cs cl ep dt ats sd
        ph).data.test_uuids, kv.1 ∈ env.pairs.filterMap pair_serial) := by
  have hmain : ∀ (c : PairCtx), c.itemCreateId = orc.itemCreateId →
      ((run_pairs true c ⟨[], lt, o.test_uuids, 0, none⟩ env.pairs).uuids.map Prod.fst).Nodup ∧
      ((run_pairs true c ⟨[], lt, o.test_uuids, 0, none⟩ env.pairs).uuids.map Prod.snd).Nodup ∧
      (∀ kv ∈ (run_pairs true c ⟨[], lt, o.test_uuids, 0, none⟩ env.pairs).uuids,
        kv.1 ∈ env.pairs.filterMap pair_serial) := by
    intro c hc
    have h := run_pairs_uuid_invariant c env.pairs ⟨[], lt, o.test_uuids, 0, none⟩
      (by rw [hinit]; exact List.nodup_nil)
      (by rw [hinit]; exact List.nodup_nil)
      hser
      (by rw [hinit]; intro kv hkv; exact absurd hkv (List.not_mem_nil kv))
      (by rw [hinit]; intro kv hkv; exact absurd hkv (List.not_mem_nil kv))
      (by
        dsimp only
        rw [hc]
        intro i j _ hi _ hj he
        exact hinj i j (by omega) (by omega) he)
    refine ⟨h.1, h.2.1, fun kv hkv => ?_⟩
    rcases h.2.2 kv hkv with hl | hr
    · rw [hinit] at hl
      exact absurd hl (List.not_mem_nil kv)
    · exact hr
  unfold execute_with_phase
  split
  · rw [hinit]
    exact ⟨List.nodup_nil, List.nodup_nil, fun kv hkv => absurd hkv (List.not_mem_nil kv)⟩
  · split
    · rw [hinit]
      exact ⟨List.nodup_nil, List.nodup_nil, fun kv hkv => absurd hkv (List.not_mem_nil kv)⟩
    · dsimp only
      split
      · dsimp only
        exact hmain _ rfl
      · dsimp only
        split <;> exact hmain _ rfl

theorem ewp_finish (o : Options) (env : Env) (orc : Oracle)
    (lt : String) (spp lpp addl ct cs cl : Bool) (ep dt : String)
    (ats : List (String × String)) (sd : String) (ph : LaunchPhase)
    (hph : ∀ x ∈ ph.calls, isLaunchFinishCall x = false ∧ is_test_item_create x = false) :
    (execute_with_phase o env orc lt spp lpp addl ct cs cl ep dt ats sd ph).err = none →
    ((execute_with_phase o env orc lt spp lpp addl ct cs cl ep dt ats sd ph).calls.any
        isLaunchFinishCall = ((lpp || (spp && env.isLastPlan)) && !addl)) ∧
    (((lpp || (spp && env.isLastPlan)) && !addl) = true →
      (execute_with_phase o env orc lt spp lpp addl ct cs cl ep dt ats sd
        ph).data.launch_url = some (pyStrOpt orc.finishLink)) := by
  have hphc : ph.calls.any isLaunchFinishCall = false :=
    any_false_of_forall (fun x hx => (hph x hx).1)
  have hloop : ∀ (c : PairCtx) (acc : PairOut)
      (h0 : ∀ x ∈ acc.calls, loop_call_ok ct x = true),
      (run_pairs ct c acc env.pairs).calls.any isLaunchFinishCall = false := by
    intro c acc h0
    exact any_false_of_forall (fun x hx =>
      loop_call_ok_no_finish (run_pairs_calls_kind ct c env.pairs acc h0 x hx))
  unfold execute_with_phase
  split
  · intro herr
    exact absurd herr (by simp)
  · split
    · intro herr
      exact absurd herr (by simp)
    · dsimp only
      split
      · intro herr
        exact absurd herr (by simp)
      · intro _
        dsimp only
        constructor
        · rw [List.any_append, List.any_append, List.any_append, List.any_append, hphc,
            hloop _ _ (fun x hx => absurd hx (List.not_mem_nil x))]
          cases cs <;>
            cases hfc : (lpp || (spp && env.isLastPlan)) && !addl <;>
              simp [hfc, isLaunchFinishCall]
        · intro hfc
          rw [hfc]
          simp

/-- C7: within a run, the persisted test-uuid map is never overwritten: when
it already has entries, the plan's processing leaves it unchanged and issues
no test-item creation call; when it is empty, the loop populates it with
distinct serial-number keys (taken from the plan's tests) and distinct
remote identifiers, assuming distinct serial numbers and distinct creation
responses. -/
theorem c7_test_uuid_map_invariant (o : Options) (env : Env) (orc : Oracle)
    (hser : (env.pairs.filterMap pair_serial).Nodup)
    (hinj : ∀ i j, i < env.pairs.length → j < env.pairs.length →
      orc.itemCreateId i = orc.itemCreateId j → i = j) :
    (o.test_uuids ≠ [] →
      (execute_rp_import o env orc).data.test_uuids = o.test_uuids ∧
      (execute_rp_import o env orc).calls.any is_test_item_create = false) ∧
    (o.test_uuids = [] →
      (((execute_rp_import o env orc).data.test_uuids.map Prod.fst).Nodup ∧
       ((execute_rp_import o env orc).data.test_uuids.map Prod.snd).Nodup ∧
       ∀ kv ∈ (execute_rp_import o env orc).data.test_uuids,
         kv.1 ∈ env.pairs.filterMap pair_serial)) := by
  constructor
  · intro hne
    have hie : o.test_uuids.isEmpty = false := by
      cases hh : o.test_uuids
      · exact absurd hh hne
      · rfl
    unfold execute_rp_import
    dsimp only
    rw [hie]
    exact ⟨ewp_uuids_reuse _ _ _ _ _ _ _ _ _ _ _ _ _ _,
      ewp_no_create _ _ _ _ _ _ _ _ _ _ _ _ _ _
        (fun x hx => resolve_calls_kind _ _ _ _ _ _ _ _ _ _ _ x hx)⟩
  · intro he
    have hie : o.test_uuids.isEmpty = true := by rw [he]; rfl
    unfold execute_rp_import
    dsimp only
    rw [hie]
    exact ewp_uuid_inv _ _ _ _ _ _ _ _ _ _ _ _ _ _ he hser hinj

/-- Witness for C7 at a concrete input: a run with two idle tests of serial
numbers 1 and 2 and an empty persisted map yields a map with distinct keys
and distinct remote identifiers. -/
theorem c7_witness :
    (env7W.pairs.filterMap pair_serial).Nodup ∧
    ((execute_rp_import oW env7W orcW).data.test_uuids.map Prod.fst).Nodup ∧
    ((execute_rp_import oW env7W orcW).data.test_uuids.map Prod.snd).Nodup :=
  ⟨by decide,
   ((c7_test_uuid_map_invariant oW env7W orcW (by decide)
      (by
        intro i j hi hj h
        have hi2 : i < 2 := hi
        have hj2 : j < 2 := hj
        interval_cases i <;> interval_cases j <;> first | rfl | (exact absurd h (by decide)))).2
      rfl).1,
   ((c7_test_uuid_map_invariant oW env7W orcW (by decide)
      (by
        intro i j hi hj h
        have hi2 : i < 2 := hi
        have hj2 : j < 2 := hj
        interval_cases i <;> interval_cases j <;> first | rfl | (exact absurd h (by decide)))).2
      rfl).2.1⟩

/-- C5: on a plan that completes without an exception, the launch-finish
call is issued if and only if the effective topology is launch-per-plan, or
suite-per-plan on the run's last plan, and the plan is not an additional
upload; the finish response's link is then stored as the persisted launch
URL.  The additional-upload predicate of the source does not consult the
persisted suite uuid (see the counterexample). -/
theorem c5_launch_finish_iff (o : Options) (env : Env) (orc : Oracle)
    (herr : (execute_rp_import o env orc).err = none) :
    ((execute_rp_import o env orc).calls.any isLaunchFinishCall = true ↔
      launch_finish_condition o env.isLastPlan = true) ∧
    (launch_finish_condition o env.isLastPlan = true →
      (execute_rp_import o env orc).data.launch_url = some (pyStrOpt orc.finishLink)) := by
  unfold execute_rp_import at herr ⊢
  dsimp only at herr ⊢
  have h := ewp_finish _ _ _ _ _ _ _ _ _ _ _ _ _ _ _
    (fun x hx => resolve_calls_kind _ _ _ _ _ _ _ _ _ _ _ x hx) herr
  refine ⟨?_, fun hc => h.2 hc⟩
  rw [h.1]
  exact Iff.rfl

/-- The spec's additional-upload predicate counts a persisted `suite_uuid`;
the code's does not: options whose only persisted state is a suite uuid. -/
theorem c5_counterexample :
    additional_upload oSuiteOnlyW = false ∧ additional_upload_spec oSuiteOnlyW = true :=
  ⟨rfl, rfl⟩

/-- Witness for C5 at a concrete input: a single-plan run with no tests
completes without an exception and satisfies the finish-call equivalence. -/
theorem c5_witness :
    (execute_rp_import oW envW orcW).err = none ∧
    ((execute_rp_import oW envW orcW).calls.any isLaunchFinishCall = true ↔
      launch_finish_condition oW envW.isLastPlan = true) :=
  ⟨rfl, (c5_launch_finish_iff oW envW orcW rfl).1⟩
